import Mathlib

/-!
Verification of the KeyVisualizer overlay utility (`keyVisualizer.py`).

This file gives a shallow embedding of the parts of the program that the
claims are about:

* input normalization (`get_key_name`, `get_key_from_vk`) and the global
  keyboard listener's press/release handlers with modifier-combination
  support (`on_press`, `on_release`);
* the overlay display-state tracker (`KeyOverlay`): `add_key`,
  `release_key`, `start_fade`, `show_combo`, `fade_key`, `update_config`;
* configuration persistence (`load_config`, `save_config`).

Modelling conventions:

* Python floats are modelled as rationals (`ℚ`); the fade arithmetic the
  claims discuss is linear and does not depend on binary rounding.
* Python dicts (which preserve insertion order and have unique keys) are
  modelled as association lists in insertion order; deletion is `filter`
  on the key, which on unique-key lists removes exactly the one entry.
* Python object identity of `KeyBubble` widgets is modelled by a numeric
  `id` handed out by an allocation counter `next_id` in the overlay state.
* Code that can raise an exception is modelled with `Option`/`Except`;
  a `none`/`.error` result marks the raising execution.
-/

/-! ## Input normalization (`keyVisualizer.py` lines 42-185)

A pynput key object is modelled by the three pieces of data the code
reads from it: `str(key)`, the optional `char` attribute (already taking
Python truthiness into account: a missing or falsy `char` is `none`), and
the optional `vk` virtual-key code. -/

structure KeyInput where
  str : String
  char : Option Char
  vk : Option Int
deriving DecidableEq

/-- Dict lookup on an insertion-ordered association list (`d[k]` / `k in d`). -/
def dictGet {α : Type} (m : List (String × α)) (k : String) : Option α :=
  (m.find? (fun p => p.1 == k)).map (fun p => p.2)

/-- Dict assignment `d[k] = v`: overwrite in place if the key is present,
otherwise append (Python dicts preserve insertion order). -/
def dictSet {α : Type} : List (String × α) → String → α → List (String × α)
  | [], k, v => [(k, v)]
  | p :: rest, k, v => if p.1 == k then (k, v) :: rest else p :: dictSet rest k v

/-- Accumulator pass of `pySplit`. -/
def splitWords (sep : Char) : List Char → List Char → List (List Char)
  | [], acc => [acc.reverse]
  | c :: rest, acc =>
    if c = sep then acc.reverse :: splitWords sep rest []
    else splitWords sep rest (c :: acc)

/-- Model of Python `str.split` with a one-character separator (the only
form the program uses): consecutive separators produce empty fields and
the empty string splits to `[""]`. -/
def pySplit (s : String) (sep : Char) : List String :=
  (splitWords sep s.toList []).map (fun l => String.mk l)

/-- Model of Python `sep.join(parts)`. -/
def pyJoin (sep : String) : List String → String
  | [] => ""
  | [x] => x
  | x :: rest => x ++ sep ++ pyJoin sep rest

/-- Model of Python `str.startswith`. -/
def strStartsWith (s pre : String) : Bool :=
  pre.toList.isPrefixOf s.toList

/-- The `KEY_DISPLAY_NAMES` table (lines 43-89). -/
def KEY_DISPLAY_NAMES : List (String × String) :=
  [("Key.space", "Space"), ("Key.enter", "Enter"), ("Key.tab", "Tab"),
   ("Key.backspace", "Backspace"), ("Key.delete", "Delete"), ("Key.escape", "Esc"),
   ("Key.shift", "Shift"), ("Key.shift_r", "Shift"),
   ("Key.ctrl", "Ctrl"), ("Key.ctrl_l", "Ctrl"), ("Key.ctrl_r", "Ctrl"),
   ("Key.alt", "Alt"), ("Key.alt_l", "Alt"), ("Key.alt_r", "Alt"),
   ("Key.alt_gr", "AltGr"),
   ("Key.cmd", "Win"), ("Key.cmd_l", "Win"), ("Key.cmd_r", "Win"),
   ("Key.caps_lock", "CapsLock"), ("Key.num_lock", "NumLock"),
   ("Key.scroll_lock", "ScrollLock"), ("Key.print_screen", "PrtSc"),
   ("Key.pause", "Pause"), ("Key.insert", "Insert"), ("Key.home", "Home"),
   ("Key.end", "End"), ("Key.page_up", "PgUp"), ("Key.page_down", "PgDn"),
   ("Key.up", "↑"), ("Key.down", "↓"), ("Key.left", "←"), ("Key.right", "→"),
   ("Key.f1", "F1"), ("Key.f2", "F2"), ("Key.f3", "F3"), ("Key.f4", "F4"),
   ("Key.f5", "F5"), ("Key.f6", "F6"), ("Key.f7", "F7"), ("Key.f8", "F8"),
   ("Key.f9", "F9"), ("Key.f10", "F10"), ("Key.f11", "F11"), ("Key.f12", "F12"),
   ("Key.menu", "Menu")]

/-- Model of Python `str.isprintable` for a single character: control
characters (below U+0020 and U+007F-U+009F) are unprintable, everything
else (including the space) counts as printable. -/
def pyIsPrintable (c : Char) : Bool :=
  decide (0x20 ≤ c.toNat) && !(decide (0x7f ≤ c.toNat) && decide (c.toNat ≤ 0x9f))

/-- Model of Python `str.title` for the strings this program feeds it:
a letter that follows a non-letter is uppercased, a letter that follows a
letter is lowercased, other characters are kept and reset the word state. -/
def pythonTitle (s : String) : String :=
  (s.toList.foldl
    (fun (acc : String × Bool) c =>
      if c.isAlpha then
        (acc.1.push (if acc.2 then c.toLower else c.toUpper), true)
      else (acc.1.push c, false))
    ("", false)).1

/-- `get_key_name` (lines 92-117): convert a pynput key to a display name. -/
def get_key_name (key : KeyInput) : Option String :=
  match dictGet KEY_DISPLAY_NAMES key.str with
  | some n => some n
  | none =>
    match key.char with
    | some c =>
      if c.isAlpha then some (String.singleton c.toUpper)
      else if pyIsPrintable c then some (String.singleton c)
      else none
    | none =>
      if strStartsWith key.str "Key." then
        some (pythonTitle ((key.str.drop 4).replace "_" " "))
      else none

/-- `chr(vk)` for a virtual-key code in the handled ASCII ranges. -/
def pyChr (n : Int) : String := String.singleton (Char.ofNat n.toNat)

/-- The body of `get_key_from_vk` (lines 141-181): mapping of an integer
virtual-key code to a display string. -/
def vkToName (vk : Int) : Option String :=
  if 0x41 ≤ vk ∧ vk ≤ 0x5A then some (pyChr vk)
  else if 0x30 ≤ vk ∧ vk ≤ 0x39 then some (pyChr vk)
  else if 0x60 ≤ vk ∧ vk ≤ 0x69 then some (toString (vk - 0x60))
  else if vk = 0x6A then some "*"
  else if vk = 0x6B then some "+"
  else if vk = 0x6D then some "-"
  else if vk = 0x6E then some "."
  else if vk = 0x6F then some "/"
  else if vk = 0xBB then some "="
  else if vk = 0xBC then some ","
  else if vk = 0xBD then some "-"
  else if vk = 0xBE then some "."
  else if vk = 0xBF then some "/"
  else if vk = 0xBA then some ";"
  else if vk = 0xDB then some "["
  else if vk = 0xDC then some "\\"
  else if vk = 0xDD then some "]"
  else if vk = 0xDE then some (String.singleton (Char.ofNat 39))
  else if vk = 0xC0 then some "`"
  else if 0x70 ≤ vk ∧ vk ≤ 0x7B then some ("F" ++ toString (vk - 0x6F))
  else if 0x20 ≤ vk ∧ vk ≤ 0x7E then some (pyChr vk)
  else none

/-- `get_key_from_vk` (lines 120-181): read the `vk` attribute and map it;
a key without a usable integer code yields `none`. -/
def get_key_from_vk (key : KeyInput) : Option String :=
  match key.vk with
  | none => none
  | some vk => vkToName vk

/-- The set of virtual-key codes for which some branch of `vkToName`
produces a label. -/
def vkHandled (vk : Int) : Prop :=
  (0x41 ≤ vk ∧ vk ≤ 0x5A) ∨ (0x30 ≤ vk ∧ vk ≤ 0x39) ∨ (0x60 ≤ vk ∧ vk ≤ 0x69) ∨
  vk = 0x6A ∨ vk = 0x6B ∨ vk = 0x6D ∨ vk = 0x6E ∨ vk = 0x6F ∨
  vk = 0xBB ∨ vk = 0xBC ∨ vk = 0xBD ∨ vk = 0xBE ∨ vk = 0xBF ∨
  vk = 0xBA ∨ vk = 0xDB ∨ vk = 0xDC ∨ vk = 0xDD ∨ vk = 0xDE ∨ vk = 0xC0 ∨
  (0x70 ≤ vk ∧ vk ≤ 0x7B) ∨ (0x20 ≤ vk ∧ vk ≤ 0x7E)

instance (vk : Int) : Decidable (vkHandled vk) := by
  unfold vkHandled; infer_instance

/-- The full normalization done by both handlers (lines 211-219, 239-247):
`get_key_name`, with `get_key_from_vk` as the fallback. -/
def normalizeKey (key : KeyInput) : Option String :=
  match get_key_name key with
  | some n => some n
  | none => get_key_from_vk key

/-- `MODIFIER_KEYS` (line 185). -/
def MODIFIER_KEYS : List String := ["Ctrl", "Alt", "Shift", "Win", "AltGr"]

/-! ## Keyboard listener (`KeyboardListener`, lines 188-253) -/

/-- The listener's mutable state: the set of currently held modifiers,
modelled as a duplicate-free list (Python uses a `set`; only membership
is ever observed, because the combo is built by scanning a fixed list). -/
structure ListenerState where
  active_modifiers : List String
deriving DecidableEq

/-- The Qt signals the listener can emit. -/
inductive KeyEvent where
  | key_pressed (s : String)
  | key_released (s : String)
  | combo_pressed (s : String)
deriving DecidableEq

/-- `set.add`: insert without duplicating. -/
def setAdd (l : List String) (x : String) : List String :=
  if x ∈ l then l else l ++ [x]

/-- The combo parts built in `_on_press` (lines 228-233): held modifiers
in the fixed order Ctrl, Alt, Shift, Win, then the key's name. -/
def comboParts (mods : List String) (key_name : String) : List String :=
  (["Ctrl", "Alt", "Shift", "Win"].filter (fun m => mods.contains m)) ++ [key_name]

/-- `_on_press` (lines 211-237): returns the new listener state and the
emitted signal, if any. -/
def on_press (st : ListenerState) (key : KeyInput) : ListenerState × Option KeyEvent :=
  match normalizeKey key with
  | none => (st, none)
  | some key_name =>
    if key_name ∈ MODIFIER_KEYS then
      (⟨setAdd st.active_modifiers key_name⟩, some (KeyEvent.key_pressed key_name))
    else
      if st.active_modifiers ≠ [] then
        (st, some (KeyEvent.combo_pressed
          (pyJoin "+" (comboParts st.active_modifiers key_name))))
      else (st, some (KeyEvent.key_pressed key_name))

/-- `_on_release` (lines 239-253). -/
def on_release (st : ListenerState) (key : KeyInput) : ListenerState × Option KeyEvent :=
  match normalizeKey key with
  | none => (st, none)
  | some key_name =>
    (if key_name ∈ MODIFIER_KEYS then
       ⟨st.active_modifiers.filter (fun m => !(m == key_name))⟩
     else st,
     some (KeyEvent.key_released key_name))

/-! ## Overlay display state (`KeyOverlay`, lines 439-699)

`KeyBubble` widgets are mutable Python objects compared by identity; the
model gives each one a unique `id` from the allocation counter `next_id`.
The overlay's mutable attributes `key_bubbles` (display order),
`fade_timers` (keys with a running fade timer), `active_keys`
(key name → bubble) and `combo_key_map` (key name → combo label) are the
state. Geometry and painting are not modelled. -/

structure KeyBubble where
  id : Nat
  key_text : String
  opacity : ℚ
deriving DecidableEq

structure OverlayState where
  key_bubbles : List KeyBubble
  fade_timers : List String
  active_keys : List (String × Nat)
  combo_key_map : List (String × String)
  next_id : Nat
deriving DecidableEq

/-- The two configuration options the overlay operations read:
`config['max_keys']` and `config['fade_speed']`. -/
structure OverlayConfig where
  max_keys : Nat
  fade_speed : ℚ
deriving DecidableEq

/-- The freshly constructed overlay (lines 445-448): everything empty. -/
def initOverlay : OverlayState :=
  { key_bubbles := [], fade_timers := [], active_keys := [], combo_key_map := [],
    next_id := 0 }

/-- One iteration of the eviction loop in `add_key` (lines 577-589): pop
the oldest bubble from the front, scan `active_keys` for the first name
mapped to it, and — because of the Python truthiness test
`if key_to_remove:` — delete that name's entry and timer only when the
name is neither missing nor the empty string. -/
def evictOnce (s : OverlayState) : OverlayState :=
  match s.key_bubbles with
  | [] => s
  | old :: rest =>
    match s.active_keys.find? (fun p => p.2 == old.id) with
    | none => { s with key_bubbles := rest }
    | some p =>
      if p.1 == "" then { s with key_bubbles := rest }
      else
        { s with
          key_bubbles := rest,
          active_keys := s.active_keys.filter (fun q => !(q.1 == p.1)),
          fade_timers := s.fade_timers.filter (fun t => !(t == p.1)) }

/-- The `while len(self.key_bubbles) > max_keys` loop of `add_key`.  The
loop removes one bubble per iteration, so running it with fuel equal to
the current number of bubbles is exhaustive; `evictLoop_fuel_stable`
below proves that more fuel changes nothing. -/
def evictLoop (max_keys : Nat) : Nat → OverlayState → OverlayState
  | 0, s => s
  | fuel + 1, s =>
    if max_keys < s.key_bubbles.length then evictLoop max_keys fuel (evictOnce s)
    else s

/-- `add_key` (lines 553-589). -/
def add_key (cfg : OverlayConfig) (s : OverlayState) (key_name : String) :
    OverlayState :=
  match dictGet s.active_keys key_name with
  | some bid =>
    { s with
      key_bubbles := s.key_bubbles.map
        (fun b => if b.id == bid then { b with opacity := 1 } else b),
      fade_timers := s.fade_timers.filter (fun t => !(t == key_name)) }
  | none =>
    let s1 : OverlayState :=
      { key_bubbles := s.key_bubbles ++ [⟨s.next_id, key_name, 1⟩],
        fade_timers := s.fade_timers,
        active_keys := s.active_keys ++ [(key_name, s.next_id)],
        combo_key_map := s.combo_key_map,
        next_id := s.next_id + 1 }
    evictLoop cfg.max_keys s1.key_bubbles.length s1

/-- `_start_fade` (lines 606-616). -/
def start_fade (s : OverlayState) (key_name : String) : OverlayState :=
  if (dictGet s.active_keys key_name).isSome then
    if key_name ∈ s.fade_timers then s
    else { s with fade_timers := s.fade_timers ++ [key_name] }
  else s

/-- `release_key` (lines 591-604). -/
def release_key (s : OverlayState) (key_name : String) : OverlayState :=
  match dictGet s.combo_key_map key_name with
  | some combo =>
    let s1 := start_fade s combo
    { s1 with combo_key_map := s1.combo_key_map.filter (fun p => !(p.2 == combo)) }
  | none => start_fade s key_name

/-- The per-modifier removal in `show_combo` (lines 624-633). -/
def removePart (s : OverlayState) (part : String) : OverlayState :=
  match dictGet s.active_keys part with
  | none => s
  | some bid =>
    { s with
      fade_timers := s.fade_timers.filter (fun t => !(t == part)),
      key_bubbles := s.key_bubbles.filter (fun b => !(b.id == bid)),
      active_keys := s.active_keys.filter (fun p => !(p.1 == part)) }

/-- `show_combo` (lines 618-640). -/
def show_combo (cfg : OverlayConfig) (s : OverlayState) (combo : String) :
    OverlayState :=
  let parts := pySplit combo (Char.ofNat 43)
  let s1 := parts.dropLast.foldl removePart s
  let s2 : OverlayState :=
    { s1 with
      combo_key_map := parts.foldl (fun m part => dictSet m part combo) s1.combo_key_map }
  add_key cfg s2 combo

/-- The per-tick opacity decrement `config['fade_speed'] / 1000.0 * 50`
(line 651). -/
def fadeRate (cfg : OverlayConfig) : ℚ := cfg.fade_speed / 1000 * 50

/-- `fade_key` (lines 642-663).  `none` marks an execution the model
cannot complete: either the `KeyError` the code raises when the removal
path runs `del self.fade_timers[key_name]` with no timer registered, or
an `active_keys` bubble that is missing from `key_bubbles` (whose
mutable opacity the model does not store; unreachable in consistent
states). -/
def fade_key (cfg : OverlayConfig) (s : OverlayState) (key_name : String) :
    Option OverlayState :=
  match dictGet s.active_keys key_name with
  | none =>
    some { s with fade_timers := s.fade_timers.filter (fun t => !(t == key_name)) }
  | some bid =>
    match s.key_bubbles.find? (fun b => b.id == bid) with
    | none => none
    | some b =>
      if b.opacity - fadeRate cfg ≤ 0 then
        if key_name ∈ s.fade_timers then
          some { key_bubbles := s.key_bubbles.filter (fun b2 => !(b2.id == bid)),
                 fade_timers := s.fade_timers.filter (fun t => !(t == key_name)),
                 active_keys := s.active_keys.filter (fun p => !(p.1 == key_name)),
                 combo_key_map := s.combo_key_map,
                 next_id := s.next_id }
        else none
      else
        some { s with
               key_bubbles := (s.key_bubbles.map
                 (fun b2 => if b2.id == bid then
                    { b2 with opacity := b.opacity - fadeRate cfg } else b2)) }

/-- `update_config` (lines 681-695): clear every bubble, key and timer. -/
def update_config (s : OverlayState) (_cfg : OverlayConfig) : OverlayState :=
  { key_bubbles := [], fade_timers := [], active_keys := [], combo_key_map := [],
    next_id := s.next_id }

/-! Scenario states for the press-then-release fade claim. -/

/-- The state after pressing key `k` on a fresh overlay and releasing it:
one bubble at full opacity with a running fade timer. -/
def releasedState (cfg : OverlayConfig) (k : String) : OverlayState :=
  start_fade (add_key cfg initOverlay k) k

/-- One bubble for key `k` at opacity `o`, its fade timer running. -/
def midState (k : String) (o : ℚ) : OverlayState :=
  { key_bubbles := [⟨0, k, o⟩], fade_timers := [k], active_keys := [(k, 0)],
    combo_key_map := [], next_id := 1 }

/-- The state after the fading bubble has been removed. -/
def goneState : OverlayState :=
  { key_bubbles := [], fade_timers := [], active_keys := [], combo_key_map := [],
    next_id := 1 }

/-- `n` consecutive ticks of `k`'s fade timer. -/
def fadeIter (cfg : OverlayConfig) (k : String) : Nat → OverlayState → Option OverlayState
  | 0, s => some s
  | n + 1, s =>
    match fade_key cfg s k with
    | none => none
    | some s2 => fadeIter cfg k n s2

/-- The number of timer ticks after which a full-opacity bubble reaches
opacity ≤ 0: the spec's "≈ 1/fade_rate" made exact, `⌈1 / fadeRate⌉`. -/
def fadeTicks (cfg : OverlayConfig) : Nat := (Int.ceil ((1 : ℚ) / fadeRate cfg)).toNat

/-! ## Configuration persistence (`KeyVisualizerApp`, lines 1287-1373)

The stored setting is a JSON string; `load_config` parses it and merges
the result over the defaults with `config.update(...)`.  JSON values are
modelled by `JVal` (numbers as rationals), the parse outcome by `Stored`
(`malformed` is the `json.JSONDecodeError` case), and the merge by
`dictUpdate`, which follows CPython's `dict.update`:

* a JSON object merges key by key (later occurrences win);
* a number, boolean or `null` is not iterable — `TypeError`;
* a nonempty string iterates its characters, each a length-1 string, so
  the first element fails the key/value-pair check — `ValueError`
  (the empty string is an empty iterable and merges nothing);
* an array is consumed element by element, mutating as it goes, so a
  partial merge survives a late error: a length-2 string becomes a pair
  of characters, a 2-element array with a string head becomes a pair;
  any other element stops with `TypeError`/`ValueError` as CPython does
  (2-element arrays with a non-string head, whose inserted key need not
  be a string, are collapsed to `TypeError`; no claim touches them). -/

inductive JVal where
  | jstr (s : String)
  | jnum (q : ℚ)
  | jbool (b : Bool)
  | jnull
  | jarr (l : List JVal)
  | jobj (l : List (String × JVal))

inductive PyErr where
  | typeError
  | valueError
deriving DecidableEq

inductive Stored where
  | absent
  | malformed
  | parsed (v : JVal)

/-- `dict.update` fed with an iterable of would-be key/value pairs. -/
def updateSeq : List (String × JVal) → List JVal → List (String × JVal) × Option PyErr
  | c, [] => (c, none)
  | c, JVal.jstr s :: rest =>
    match s.toList with
    | [a, b] => updateSeq (dictSet c (String.singleton a) (JVal.jstr (String.singleton b))) rest
    | _ => (c, some PyErr.valueError)
  | c, JVal.jarr [JVal.jstr k, v] :: rest => updateSeq (dictSet c k v) rest
  | c, JVal.jarr [_, _] :: _ => (c, some PyErr.typeError)
  | c, JVal.jarr _ :: _ => (c, some PyErr.valueError)
  | c, _ :: _ => (c, some PyErr.typeError)

/-- `config.update(stored_config)` (line 1365): result dict plus the
exception it raises, if any (the dict keeps any partial merge). -/
def dictUpdate (c : List (String × JVal)) (v : JVal) :
    List (String × JVal) × Option PyErr :=
  match v with
  | JVal.jobj kvs => (kvs.foldl (fun acc p => dictSet acc p.1 p.2) c, none)
  | JVal.jstr s => if s = "" then (c, none) else (c, some PyErr.valueError)
  | JVal.jarr l => updateSeq c l
  | _ => (c, some PyErr.typeError)

/-- `DEFAULT_CONFIG` (lines 1287-1318). -/
def DEFAULT_CONFIG : List (String × JVal) :=
  [("bg_color", JVal.jstr "#2b2b2b"),
   ("text_color", JVal.jstr "#ffffff"),
   ("border_color", JVal.jstr "#555555"),
   ("show_border", JVal.jbool true),
   ("font_family", JVal.jstr "Segoe UI"),
   ("font_size", JVal.jnum 20),
   ("font_bold", JVal.jbool true),
   ("padding", JVal.jnum 15),
   ("min_bubble_width", JVal.jnum 55),
   ("border_radius", JVal.jnum 25),
   ("border_width", JVal.jnum 3),
   ("overlay_height", JVal.jnum 80),
   ("margin_bottom", JVal.jnum 50),
   ("margin_horizontal", JVal.jnum 0),
   ("bubble_spacing", JVal.jnum 10),
   ("fade_speed", JVal.jnum (1/2)),
   ("max_keys", JVal.jnum 10),
   ("start_minimized", JVal.jbool true),
   ("autostart", JVal.jbool false),
   ("position_horizontal", JVal.jstr "center"),
   ("position_vertical", JVal.jstr "bottom"),
   ("screen_selection", JVal.jstr "primary"),
   ("show_click_spot", JVal.jbool true),
   ("click_spot_radius", JVal.jnum 45),
   ("click_spot_fade_ms", JVal.jnum 400),
   ("click_spot_color_left", JVal.jstr "#6490ff"),
   ("click_spot_color_right", JVal.jstr "#ff7864"),
   ("click_spot_color_middle", JVal.jstr "#8cc88c"),
   ("click_spot_opacity", JVal.jnum (7/10))]

/-- `load_config` (lines 1357-1369).  A missing or empty stored string
skips the parse (`if stored:`); `json.JSONDecodeError` and `TypeError`
are caught (keeping any partial merge); a `ValueError` from the pair
check propagates — it is not a `json.JSONDecodeError` and is not in the
`except` tuple. -/
def load_config (stored : Stored) : Except PyErr (List (String × JVal)) :=
  match stored with
  | Stored.absent => Except.ok DEFAULT_CONFIG
  | Stored.malformed => Except.ok DEFAULT_CONFIG
  | Stored.parsed v =>
    match dictUpdate DEFAULT_CONFIG v with
    | (c, none) => Except.ok c
    | (c, some PyErr.typeError) => Except.ok c
    | (_, some PyErr.valueError) => Except.error PyErr.valueError

/-- `save_config` (lines 1371-1373): `json.dumps(self.config)` writes the
configuration dict as a JSON object; reading the stored string back and
`json.loads`-ing it yields that object again (text round-tripping of a
string-keyed dict is the identity, numbers included — Python floats
round-trip exactly through `repr`). -/
def save_config (c : List (String × JVal)) : Stored :=
  Stored.parsed (JVal.jobj c)

/-! ## The display-state consistency invariant (claim C10)

`active_keys` is a bijection between visible key names and the bubbles of
`key_bubbles` (matching the bubble's text), every running fade timer
belongs to a visible key, key names are unique and nonempty, and every
allocated bubble id is below the allocation counter. -/

structure OverlayInv (s : OverlayState) : Prop where
  namesNodup : (s.active_keys.map Prod.fst).Nodup
  idsNodup : (s.key_bubbles.map KeyBubble.id).Nodup
  perm : (s.active_keys.map Prod.snd).Perm (s.key_bubbles.map KeyBubble.id)
  namesNe : ∀ p ∈ s.active_keys, p.1 ≠ ""
  textEq : ∀ p ∈ s.active_keys, ∀ b ∈ s.key_bubbles, b.id = p.2 → b.key_text = p.1
  timersSub : ∀ t ∈ s.fade_timers, t ∈ s.active_keys.map Prod.fst
  fresh : ∀ b ∈ s.key_bubbles, b.id < s.next_id

/-! ## Helper lemmas on the dict model -/

theorem dictGet_nil {α : Type} (k : String) : dictGet ([] : List (String × α)) k = none := rfl

theorem dictGet_cons {α : Type} (p : String × α) (m : List (String × α)) (k : String) :
    dictGet (p :: m) k = if p.1 == k then some p.2 else dictGet m k := by
  by_cases h : p.1 == k <;> simp [dictGet, List.find?_cons, h]

theorem dictGet_eq_none {α : Type} {m : List (String × α)} {k : String}
    (h : dictGet m k = none) : ∀ p ∈ m, p.1 ≠ k := by
  intro p hp
  simp only [dictGet, Option.map_eq_none'] at h
  have := List.find?_eq_none.mp h p hp
  simpa using this

theorem dictGet_some_mem {α : Type} {m : List (String × α)} {k : String} {v : α}
    (h : dictGet m k = some v) : (k, v) ∈ m := by
  simp only [dictGet, Option.map_eq_some'] at h
  obtain ⟨p, hp, hv⟩ := h
  have hmem := List.mem_of_find?_eq_some hp
  have hk := List.find?_some hp
  simp only [beq_iff_eq] at hk
  obtain ⟨p1, p2⟩ := p
  simp only at hk hv
  subst hk; subst hv; exact hmem

theorem dictGet_some_key_mem {α : Type} {m : List (String × α)} {k : String} {v : α}
    (h : dictGet m k = some v) : k ∈ m.map Prod.fst := by
  have := dictGet_some_mem h
  exact List.mem_map.mpr ⟨(k, v), this, rfl⟩

theorem dictGet_isSome_of_mem {α : Type} {m : List (String × α)} {k : String}
    (h : k ∈ m.map Prod.fst) : (dictGet m k).isSome := by
  obtain ⟨p, hp, hk⟩ := List.mem_map.mp h
  simp only [dictGet, Option.isSome_map']
  rw [List.find?_isSome]
  exact ⟨p, hp, by simp [hk]⟩

theorem dictGet_dictSet_self {α : Type} (m : List (String × α)) (k : String) (v : α) :
    dictGet (dictSet m k v) k = some v := by
  induction m with
  | nil => simp [dictSet, dictGet_cons]
  | cons p rest ih =>
    by_cases h : p.1 == k
    · simp [dictSet, h, dictGet_cons]
    · simp [dictSet, h, dictGet_cons, ih]

theorem dictGet_dictSet_ne {α : Type} (m : List (String × α)) (k k2 : String) (v : α)
    (h : k2 ≠ k) : dictGet (dictSet m k v) k2 = dictGet m k2 := by
  induction m with
  | nil => simp [dictSet, dictGet_cons, dictGet_nil, Ne.symm h]
  | cons p rest ih =>
    by_cases hp : p.1 == k
    · have hp2 : p.1 = k := by simpa using hp
      simp [dictSet, hp, dictGet_cons, Ne.symm h, hp2]
    · simp [dictSet, hp, dictGet_cons, ih]

/-- Filtering out one key is invisible to lookups of other keys. -/
theorem dictGet_filter_ne {α : Type} (m : List (String × α)) (k k2 : String)
    (h : k2 ≠ k) : dictGet (m.filter (fun p => !(p.1 == k))) k2 = dictGet m k2 := by
  induction m with
  | nil => rfl
  | cons p rest ih =>
    by_cases hp : p.1 == k
    · have hp2 : p.1 = k := by simpa using hp
      rw [List.filter_cons_of_neg (by simp [hp])]
      rw [dictGet_cons, if_neg (by simp [hp2, Ne.symm h]), ih]
    · rw [List.filter_cons_of_pos (by simp [hp])]
      rw [dictGet_cons, dictGet_cons, ih]

theorem dictGet_filter_self {α : Type} (m : List (String × α)) (k : String) :
    dictGet (m.filter (fun p => !(p.1 == k))) k = none := by
  induction m with
  | nil => rfl
  | cons p rest ih =>
    by_cases hp : p.1 == k
    · rw [List.filter_cons_of_neg (by simp [hp])]; exact ih
    · rw [List.filter_cons_of_pos (by simp [hp])]
      rw [dictGet_cons, if_neg hp]; exact ih

/-- A list with duplicate-free image under `f` is, up to permutation, any
of its elements consed onto the list with that element's image filtered
out.  Instantiated with `Prod.fst` (dict entries) and `KeyBubble.id`. -/
theorem perm_cons_filter {α β : Type} [BEq β] [LawfulBEq β] (f : α → β) :
    ∀ (l : List α) (a : α), a ∈ l → (l.map f).Nodup →
      l.Perm (a :: l.filter (fun x => !(f x == f a)))
  | [], a, ha, _ => absurd ha (List.not_mem_nil a)
  | q :: t, a, ha, hnd => by
    have hndt : (t.map f).Nodup := (by simpa using hnd : _ ∧ _).2
    by_cases hq : f q == f a
    · have hqa : f q = f a := by simpa using hq
      have haq : a = q := by
        rcases List.mem_cons.mp ha with h | h
        · exact h
        · exfalso
          have hnin : f q ∉ t.map f := (by simpa using hnd : _ ∧ _).1
          apply hnin
          rw [hqa]
          exact List.mem_map.mpr ⟨a, h, rfl⟩
      subst haq
      rw [List.filter_cons_of_neg (by simp [hq])]
      have hself : t.filter (fun x => !(f x == f a)) = t := by
        apply List.filter_eq_self.mpr
        intro x hx
        have hnin : f a ∉ t.map f := by
          have := (by simpa using hnd : _ ∧ _).1
          simpa [hqa] using this
        simp only [Bool.not_eq_eq_eq_not, Bool.not_true, beq_eq_false_iff_ne]
        intro hfx
        apply hnin
        rw [← hfx]
        exact List.mem_map.mpr ⟨x, hx, rfl⟩
      rw [hself]
    · have hat : a ∈ t := by
        rcases List.mem_cons.mp ha with h | h
        · exfalso
          apply (by simpa using hq : ¬ f q = f a)
          rw [h]
        · exact h
      have ih := perm_cons_filter f t a hat hndt
      rw [List.filter_cons_of_pos (by simp [hq])]
      exact (ih.cons q).trans (List.Perm.swap a q _)

/-! ## Eviction loop lemmas -/

theorem evictOnce_bubbles (s : OverlayState) :
    (evictOnce s).key_bubbles = s.key_bubbles.tail := by
  unfold evictOnce
  cases h : s.key_bubbles with
  | nil => simp [h]
  | cons old rest =>
    cases hf : (s.active_keys.find? fun p => p.2 == old.id) with
    | none => simp [hf]
    | some p =>
      by_cases hp : p.1 == "" <;> simp [hf, hp]

theorem evictOnce_combo (s : OverlayState) :
    (evictOnce s).combo_key_map = s.combo_key_map := by
  unfold evictOnce
  cases h : s.key_bubbles with
  | nil => rfl
  | cons old rest =>
    cases hf : (s.active_keys.find? fun p => p.2 == old.id) with
    | none => simp [hf]
    | some p =>
      by_cases hp : p.1 == "" <;> simp [hf, hp]

theorem evictOnce_next_id (s : OverlayState) :
    (evictOnce s).next_id = s.next_id := by
  unfold evictOnce
  cases h : s.key_bubbles with
  | nil => rfl
  | cons old rest =>
    cases hf : (s.active_keys.find? fun p => p.2 == old.id) with
    | none => simp [hf]
    | some p =>
      by_cases hp : p.1 == "" <;> simp [hf, hp]

theorem evictLoop_of_le (m : Nat) (fuel : Nat) (s : OverlayState)
    (h : s.key_bubbles.length ≤ m) : evictLoop m fuel s = s := by
  cases fuel with
  | zero => rfl
  | succ fuel => simp [evictLoop, Nat.not_lt.mpr h]

/-- The loop always stops with at most `max_keys` bubbles, given
exhaustive fuel. -/
theorem evictLoop_length_le (m : Nat) :
    ∀ (fuel : Nat) (s : OverlayState), s.key_bubbles.length ≤ fuel →
      (evictLoop m fuel s).key_bubbles.length ≤ m
  | 0, s, h => by
    simp only [evictLoop]
    omega
  | fuel + 1, s, h => by
    by_cases hl : m < s.key_bubbles.length
    · simp only [evictLoop, if_pos hl]
      apply evictLoop_length_le m fuel
      rw [evictOnce_bubbles, List.length_tail]
      omega
    · simp only [evictLoop, if_neg hl]
      omega

/-- Fuel beyond the number of bubbles is irrelevant: the fuelled loop is
the `while` loop. -/
theorem evictLoop_fuel_stable (m : Nat) :
    ∀ (fuel : Nat) (s : OverlayState), s.key_bubbles.length ≤ fuel →
      evictLoop m (fuel + 1) s = evictLoop m fuel s
  | 0, s, h => by
    have h0 : s.key_bubbles.length = 0 := Nat.le_zero.mp h
    simp [evictLoop, h0]
  | fuel + 1, s, h => by
    by_cases hl : m < s.key_bubbles.length
    · have hrec := evictLoop_fuel_stable m fuel (evictOnce s) (by
        rw [evictOnce_bubbles, List.length_tail]; omega)
      simp only [evictLoop, if_pos hl]
      exact hrec
    · simp only [evictLoop, if_neg hl]

theorem evictLoop_combo (m : Nat) :
    ∀ (fuel : Nat) (s : OverlayState),
      (evictLoop m fuel s).combo_key_map = s.combo_key_map
  | 0, _ => rfl
  | fuel + 1, s => by
    by_cases hl : m < s.key_bubbles.length
    · simp only [evictLoop, if_pos hl]
      rw [evictLoop_combo m fuel, evictOnce_combo]
    · simp only [evictLoop, if_neg hl]

theorem evictLoop_next_id (m : Nat) :
    ∀ (fuel : Nat) (s : OverlayState), (evictLoop m fuel s).next_id = s.next_id
  | 0, _ => rfl
  | fuel + 1, s => by
    by_cases hl : m < s.key_bubbles.length
    · simp only [evictLoop, if_pos hl]
      rw [evictLoop_next_id m fuel, evictOnce_next_id]
    · simp only [evictLoop, if_neg hl]

theorem add_key_combo (cfg : OverlayConfig) (s : OverlayState) (k : String) :
    (add_key cfg s k).combo_key_map = s.combo_key_map := by
  unfold add_key
  cases h : dictGet s.active_keys k with
  | some bid => rfl
  | none => simp only; rw [evictLoop_combo]

/-! ## Lemmas about the opacity-only bubble update -/

theorem map_opacity_ids (l : List KeyBubble) (bid : Nat) (o : ℚ) :
    ((l.map (fun b => if b.id == bid then { b with opacity := o } else b)).map
      KeyBubble.id) = l.map KeyBubble.id := by
  induction l with
  | nil => rfl
  | cons b rest ih =>
    by_cases h : b.id == bid
    · simp only [List.map_cons, if_pos h, ih]
    · simp only [List.map_cons, if_neg h, ih]

theorem map_opacity_texts (l : List KeyBubble) (bid : Nat) (o : ℚ) :
    ((l.map (fun b => if b.id == bid then { b with opacity := o } else b)).map
      KeyBubble.key_text) = l.map KeyBubble.key_text := by
  induction l with
  | nil => rfl
  | cons b rest ih =>
    by_cases h : b.id == bid
    · simp only [List.map_cons, if_pos h, ih]
    · simp only [List.map_cons, if_neg h, ih]

/-! ## Claim C1: the max-keys bound and oldest-first eviction -/

theorem add_key_length_le (cfg : OverlayConfig) (s : OverlayState) (k : String)
    (hlen : s.key_bubbles.length ≤ cfg.max_keys) :
    (add_key cfg s k).key_bubbles.length ≤ cfg.max_keys := by
  unfold add_key
  cases h : dictGet s.active_keys k with
  | some bid => simpa using hlen
  | none =>
    simp only
    exact evictLoop_length_le _ _ _ (le_refl _)

theorem add_key_evicts_oldest (cfg : OverlayConfig) (s : OverlayState) (k : String)
    (hmax : 1 ≤ cfg.max_keys)
    (hnew : dictGet s.active_keys k = none)
    (hfull : s.key_bubbles.length = cfg.max_keys) :
    (add_key cfg s k).key_bubbles = s.key_bubbles.tail ++ [⟨s.next_id, k, 1⟩] := by
  unfold add_key
  rw [hnew]
  simp only
  rw [show (s.key_bubbles ++ [(⟨s.next_id, k, 1⟩ : KeyBubble)]).length = cfg.max_keys + 1 by
    simp [hfull]]
  rw [show cfg.max_keys + 1 = cfg.max_keys + 1 from rfl]
  simp only [evictLoop, if_pos (by simp [hfull] : cfg.max_keys <
    ({ key_bubbles := s.key_bubbles ++ [⟨s.next_id, k, 1⟩], fade_timers := s.fade_timers,
       active_keys := s.active_keys ++ [(k, s.next_id)], combo_key_map := s.combo_key_map,
       next_id := s.next_id + 1 } : OverlayState).key_bubbles.length)]
  rw [evictLoop_of_le]
  · rw [evictOnce_bubbles]
    cases hb : s.key_bubbles with
    | nil => rw [hb] at hfull; simp at hfull; omega
    | cons b t => simp
  · rw [evictOnce_bubbles]
    simp [hfull]

theorem add_key_foldl_length_le (cfg : OverlayConfig) (ks : List String) :
    ∀ s : OverlayState, s.key_bubbles.length ≤ cfg.max_keys →
      ((ks.foldl (fun st kk => add_key cfg st kk) s).key_bubbles.length ≤ cfg.max_keys) := by
  induction ks with
  | nil => intro s h; simpa using h
  | cons k rest ih => intro s h; exact ih _ (add_key_length_le cfg s k h)

/-- Claim C1: with `max_keys ≥ 1`, every `add_key` call keeps the number
of visible bubbles at most `max_keys` (and so does any further sequence
of calls), and when a new entry would exceed the limit the oldest bubble
— the front of `key_bubbles` — is the one evicted, with no condition on
its fade state. -/
theorem c1_max_keys_eviction (cfg : OverlayConfig) (s : OverlayState) (k : String)
    (hmax : 1 ≤ cfg.max_keys) (hlen : s.key_bubbles.length ≤ cfg.max_keys) :
    (add_key cfg s k).key_bubbles.length ≤ cfg.max_keys ∧
    (dictGet s.active_keys k = none → s.key_bubbles.length = cfg.max_keys →
      (add_key cfg s k).key_bubbles = s.key_bubbles.tail ++ [⟨s.next_id, k, 1⟩]) ∧
    (∀ ks : List String,
      ((ks.foldl (fun st kk => add_key cfg st kk) s).key_bubbles.length ≤ cfg.max_keys)) :=
  ⟨add_key_length_le cfg s k hlen,
   fun hnew hfull => add_key_evicts_oldest cfg s k hmax hnew hfull,
   fun ks => add_key_foldl_length_le cfg ks s hlen⟩

def overlayCfgW : OverlayConfig := ⟨2, 1/2⟩

/-- A two-bubble overlay state at the limit, with a fade running on the
oldest entry. -/
def overlayStateW : OverlayState :=
  { key_bubbles := [⟨0, "A", 1⟩, ⟨1, "B", 1⟩], fade_timers := ["A"],
    active_keys := [("A", 0), ("B", 1)], combo_key_map := [], next_id := 2 }

/-- Witness for C1: pressing a third key on a full two-slot overlay. -/
theorem c1_witness :
    1 ≤ overlayCfgW.max_keys ∧ overlayStateW.key_bubbles.length ≤ overlayCfgW.max_keys ∧
    ((add_key overlayCfgW overlayStateW "C").key_bubbles.length ≤ overlayCfgW.max_keys ∧
     (dictGet overlayStateW.active_keys "C" = none →
       overlayStateW.key_bubbles.length = overlayCfgW.max_keys →
       (add_key overlayCfgW overlayStateW "C").key_bubbles =
         overlayStateW.key_bubbles.tail ++ [⟨overlayStateW.next_id, "C", 1⟩]) ∧
     (∀ ks : List String,
       ((ks.foldl (fun st kk => add_key overlayCfgW st kk) overlayStateW).key_bubbles.length ≤
         overlayCfgW.max_keys))) :=
  ⟨by decide, by decide,
   c1_max_keys_eviction overlayCfgW overlayStateW "C" (by decide) (by decide)⟩

/-! ## Claim C9: re-pressing a held key only resets that entry -/

/-- Claim C9: when `key_name` is already shown, `add_key` resets that
bubble's opacity to 1 and cancels its fade timer, and changes nothing
else: no entry is created or evicted, the bubble list keeps its length,
ids, texts and order, other bubbles keep their opacity (they are kept as
the very same bubbles), other timers and the combo map are untouched. -/
theorem c9_reset_only (cfg : OverlayConfig) (s : OverlayState) (k : String) (bid : Nat)
    (h : dictGet s.active_keys k = some bid) :
    (add_key cfg s k).active_keys = s.active_keys ∧
    (add_key cfg s k).combo_key_map = s.combo_key_map ∧
    (add_key cfg s k).next_id = s.next_id ∧
    (add_key cfg s k).key_bubbles.length = s.key_bubbles.length ∧
    (add_key cfg s k).key_bubbles.map KeyBubble.id = s.key_bubbles.map KeyBubble.id ∧
    (add_key cfg s k).key_bubbles.map KeyBubble.key_text =
      s.key_bubbles.map KeyBubble.key_text ∧
    (∀ b ∈ (add_key cfg s k).key_bubbles, b.id = bid → b.opacity = 1) ∧
    (∀ b ∈ s.key_bubbles, b.id ≠ bid → b ∈ (add_key cfg s k).key_bubbles) ∧
    k ∉ (add_key cfg s k).fade_timers ∧
    (∀ k2, k2 ≠ k → (k2 ∈ (add_key cfg s k).fade_timers ↔ k2 ∈ s.fade_timers)) := by
  unfold add_key
  rw [h]
  refine ⟨rfl, rfl, rfl, by simp, map_opacity_ids _ _ _, map_opacity_texts _ _ _,
    ?_, ?_, ?_, ?_⟩
  · intro b hb hbid
    obtain ⟨b0, hb0, rfl⟩ := List.mem_map.mp hb
    by_cases h0 : b0.id == bid
    · simp [h0]
    · rw [if_neg h0] at hbid ⊢
      exact absurd hbid (by simpa using h0)
  · intro b hb hbid
    apply List.mem_map.mpr
    exact ⟨b, hb, by simp [hbid]⟩
  · simp [List.mem_filter]
  · intro k2 hk2
    simp [List.mem_filter, hk2]

/-- Witness for C9: re-pressing the held key "A". -/
theorem c9_witness :
    dictGet overlayStateW.active_keys "A" = some 0 ∧
    ((add_key overlayCfgW overlayStateW "A").active_keys = overlayStateW.active_keys ∧
     (add_key overlayCfgW overlayStateW "A").combo_key_map = overlayStateW.combo_key_map ∧
     (add_key overlayCfgW overlayStateW "A").next_id = overlayStateW.next_id ∧
     (add_key overlayCfgW overlayStateW "A").key_bubbles.length =
       overlayStateW.key_bubbles.length ∧
     (add_key overlayCfgW overlayStateW "A").key_bubbles.map KeyBubble.id =
       overlayStateW.key_bubbles.map KeyBubble.id ∧
     (add_key overlayCfgW overlayStateW "A").key_bubbles.map KeyBubble.key_text =
       overlayStateW.key_bubbles.map KeyBubble.key_text ∧
     (∀ b ∈ (add_key overlayCfgW overlayStateW "A").key_bubbles, b.id = 0 → b.opacity = 1) ∧
     (∀ b ∈ overlayStateW.key_bubbles, b.id ≠ 0 →
       b ∈ (add_key overlayCfgW overlayStateW "A").key_bubbles) ∧
     "A" ∉ (add_key overlayCfgW overlayStateW "A").fade_timers ∧
     (∀ k2, k2 ≠ "A" → (k2 ∈ (add_key overlayCfgW overlayStateW "A").fade_timers ↔
       k2 ∈ overlayStateW.fade_timers))) :=
  ⟨by decide, c9_reset_only overlayCfgW overlayStateW "A" 0 (by decide)⟩

/-! ## Claim C3: releasing any component releases the whole combo -/

theorem start_fade_bubbles (s : OverlayState) (k : String) :
    (start_fade s k).key_bubbles = s.key_bubbles := by
  unfold start_fade
  split_ifs <;> rfl

theorem start_fade_active (s : OverlayState) (k : String) :
    (start_fade s k).active_keys = s.active_keys := by
  unfold start_fade
  split_ifs <;> rfl

theorem start_fade_combo (s : OverlayState) (k : String) :
    (start_fade s k).combo_key_map = s.combo_key_map := by
  unfold start_fade
  split_ifs <;> rfl

theorem start_fade_timer_mem (s : OverlayState) (k : String)
    (h : (dictGet s.active_keys k).isSome) : k ∈ (start_fade s k).fade_timers := by
  unfold start_fade
  rw [if_pos h]
  by_cases ht : k ∈ s.fade_timers
  · rw [if_pos ht]; exact ht
  · rw [if_neg ht]; simp

theorem start_fade_timer_other (s : OverlayState) (k k2 : String) (h : k2 ≠ k) :
    (k2 ∈ (start_fade s k).fade_timers ↔ k2 ∈ s.fade_timers) := by
  unfold start_fade
  split_ifs <;> simp [h]

theorem dictGet_filter_val_ne {α : Type} [BEq α] [LawfulBEq α]
    (m : List (String × α)) (v : α) (q : String) :
    dictGet (m.filter (fun p => !(p.2 == v))) q ≠ some v := by
  intro hq
  have hmem := dictGet_some_mem hq
  have := (List.mem_filter.mp hmem).2
  simp at this

theorem removePart_combo (s : OverlayState) (part : String) :
    (removePart s part).combo_key_map = s.combo_key_map := by
  unfold removePart
  cases dictGet s.active_keys part <;> rfl

theorem foldl_removePart_combo (parts : List String) :
    ∀ s : OverlayState, (parts.foldl removePart s).combo_key_map = s.combo_key_map := by
  induction parts with
  | nil => intro s; rfl
  | cons p rest ih => intro s; rw [List.foldl_cons, ih, removePart_combo]

theorem dictGet_foldl_set_not_mem {α : Type} (v : α) :
    ∀ (parts : List String) (m : List (String × α)) (q : String), q ∉ parts →
      dictGet (parts.foldl (fun acc part => dictSet acc part v) m) q = dictGet m q := by
  intro parts
  induction parts with
  | nil => intro m q _; rfl
  | cons p rest ih =>
    intro m q hq
    rw [List.foldl_cons, ih _ q (fun hr => hq (List.mem_cons_of_mem p hr)),
      dictGet_dictSet_ne _ _ _ _
        (fun he => hq (by rw [he]; exact List.mem_cons_self p rest))]

theorem dictGet_foldl_set_mem {α : Type} (v : α) :
    ∀ (parts : List String) (m : List (String × α)) (q : String), q ∈ parts →
      dictGet (parts.foldl (fun acc part => dictSet acc part v) m) q = some v := by
  intro parts
  induction parts with
  | nil => intro m q hq; simp at hq
  | cons p rest ih =>
    intro m q hq
    rw [List.foldl_cons]
    by_cases hqr : q ∈ rest
    · exact ih _ q hqr
    · have hqp : q = p := by
        rcases List.mem_cons.mp hq with h | h
        · exact h
        · exact absurd h hqr
      subst hqp
      rw [dictGet_foldl_set_not_mem v rest _ q hqr]
      exact dictGet_dictSet_self _ _ _

theorem show_combo_combo_map (cfg : OverlayConfig) (s : OverlayState) (combo : String) :
    (show_combo cfg s combo).combo_key_map =
      (pySplit combo (Char.ofNat 43)).foldl (fun m part => dictSet m part combo)
        (((pySplit combo (Char.ofNat 43)).dropLast.foldl removePart s).combo_key_map) := by
  simp only [show_combo, add_key_combo]

/-- Claim C3: if `key_name` is mapped to a combo, `release_key` releases
the combo as one unit — the combo entry's fade starts, every mapping to
that combo is removed (so later releases of other components are not
per-key releases either), mappings to other combos survive, the
component's own timer is not started, and no bubble is touched.  And
`show_combo` is what put every component of the combo into
`combo_key_map`. -/
theorem c3_combo_release (cfg : OverlayConfig) (s : OverlayState) (kn combo : String)
    (h : dictGet s.combo_key_map kn = some combo) :
    (release_key s kn).key_bubbles = s.key_bubbles ∧
    (release_key s kn).active_keys = s.active_keys ∧
    ((dictGet s.active_keys combo).isSome → combo ∈ (release_key s kn).fade_timers) ∧
    (∀ q, dictGet (release_key s kn).combo_key_map q ≠ some combo) ∧
    (∀ p ∈ s.combo_key_map, p.2 ≠ combo → p ∈ (release_key s kn).combo_key_map) ∧
    (kn ≠ combo → ((kn ∈ (release_key s kn).fade_timers) ↔ kn ∈ s.fade_timers)) ∧
    (∀ part ∈ pySplit combo (Char.ofNat 43),
      dictGet (show_combo cfg s combo).combo_key_map part = some combo) := by
  unfold release_key
  rw [h]
  simp only
  refine ⟨start_fade_bubbles s combo, start_fade_active s combo, ?_, ?_, ?_, ?_, ?_⟩
  · intro hsome
    exact start_fade_timer_mem s combo hsome
  · intro q
    rw [start_fade_combo]
    exact dictGet_filter_val_ne _ _ _
  · intro p hp hpne
    rw [start_fade_combo]
    exact List.mem_filter.mpr ⟨hp, by simpa using hpne⟩
  · intro hne
    exact start_fade_timer_other s combo kn hne
  · intro part hpart
    rw [show_combo_combo_map]
    exact dictGet_foldl_set_mem combo _ _ part hpart

/-- A state displaying the combo "Ctrl+S" with both components mapped to
it and the "Ctrl" timer running on another entry. -/
def comboStateW : OverlayState :=
  { key_bubbles := [⟨0, "Ctrl+S", 1⟩], fade_timers := [],
    active_keys := [("Ctrl+S", 0)],
    combo_key_map := [("Ctrl", "Ctrl+S"), ("S", "Ctrl+S"), ("A", "Alt+A")],
    next_id := 1 }

/-- Witness for C3: releasing the "S" of a displayed "Ctrl+S". -/
theorem c3_witness :
    dictGet comboStateW.combo_key_map "S" = some "Ctrl+S" ∧
    ((release_key comboStateW "S").key_bubbles = comboStateW.key_bubbles ∧
     (release_key comboStateW "S").active_keys = comboStateW.active_keys ∧
     ((dictGet comboStateW.active_keys "Ctrl+S").isSome →
       "Ctrl+S" ∈ (release_key comboStateW "S").fade_timers) ∧
     (∀ q, dictGet (release_key comboStateW "S").combo_key_map q ≠ some "Ctrl+S") ∧
     (∀ p ∈ comboStateW.combo_key_map, p.2 ≠ "Ctrl+S" →
       p ∈ (release_key comboStateW "S").combo_key_map) ∧
     ("S" ≠ "Ctrl+S" → (("S" ∈ (release_key comboStateW "S").fade_timers) ↔
       "S" ∈ comboStateW.fade_timers)) ∧
     (∀ part ∈ pySplit "Ctrl+S" (Char.ofNat 43),
       dictGet (show_combo overlayCfgW comboStateW "Ctrl+S").combo_key_map part =
         some "Ctrl+S")) :=
  ⟨by decide, c3_combo_release overlayCfgW comboStateW "S" "Ctrl+S" (by decide)⟩

/-! ## Claim C2: linear fade and removal at zero -/

theorem releasedState_eq (cfg : OverlayConfig) (k : String) (hmax : 1 ≤ cfg.max_keys) :
    releasedState cfg k = midState k 1 := by
  unfold releasedState add_key initOverlay
  rw [show dictGet ([] : List (String × Nat)) k = none from rfl]
  simp only [evictLoop, List.length_append, List.length_nil, List.length_cons,
    Nat.zero_add, if_neg (by omega : ¬ cfg.max_keys < 1)]
  unfold start_fade
  rw [if_pos (by simp [dictGet]), if_neg (by simp)]
  rfl

theorem fade_key_midState (cfg : OverlayConfig) (k : String) (o : ℚ) :
    fade_key cfg (midState k o) k =
      if o - fadeRate cfg ≤ 0 then some goneState
      else some (midState k (o - fadeRate cfg)) := by
  unfold fade_key midState
  rw [show dictGet [(k, 0)] k = some 0 by simp [dictGet]]
  simp only [List.find?_cons, show ((⟨0, k, o⟩ : KeyBubble).id == 0) = true from rfl]
  by_cases h : o - fadeRate cfg ≤ 0
  · rw [if_pos h, if_pos h, if_pos (List.mem_singleton.mpr rfl)]
    unfold goneState
    simp
  · rw [if_neg h, if_neg h]
    simp

theorem fadeIter_midState (cfg : OverlayConfig) (k : String) (hr : 0 < fadeRate cfg) :
    ∀ (n : Nat) (o : ℚ), 0 < o - n * fadeRate cfg →
      fadeIter cfg k n (midState k o) = some (midState k (o - n * fadeRate cfg)) := by
  intro n
  induction n with
  | zero => intro o ho; simp [fadeIter]
  | succ n ih =>
    intro o ho
    have hn : (0:ℚ) ≤ (n:ℚ) * fadeRate cfg :=
      mul_nonneg (Nat.cast_nonneg n) (le_of_lt hr)
    push_cast at ho
    have hstep : ¬ (o - fadeRate cfg ≤ 0) := by
      push_neg
      nlinarith [ho, hn]
    simp only [fadeIter, fade_key_midState, if_neg hstep]
    have hrec := ih (o - fadeRate cfg) (by nlinarith [ho, hn])
    rw [hrec]
    congr 2
    push_cast
    ring

theorem fadeIter_succ_back (cfg : OverlayConfig) (k : String) :
    ∀ (n : Nat) (s : OverlayState),
      fadeIter cfg k (n + 1) s =
        (fadeIter cfg k n s).bind (fun s2 => fade_key cfg s2 k) := by
  intro n
  induction n with
  | zero =>
    intro s
    cases h : fade_key cfg s k <;> simp [fadeIter, h]
  | succ n ih =>
    intro s
    simp only [fadeIter]
    cases h : fade_key cfg s k with
    | none => simp
    | some s2 => exact ih s2

theorem fadeTicks_cast (cfg : OverlayConfig) (hr : 0 < fadeRate cfg) :
    ((fadeTicks cfg : ℤ)) = Int.ceil ((1:ℚ) / fadeRate cfg) := by
  unfold fadeTicks
  have hpos : 0 < (1:ℚ) / fadeRate cfg := by positivity
  exact Int.toNat_of_nonneg (le_of_lt (Int.ceil_pos.mpr hpos))

theorem fadeTicks_mul_lt (cfg : OverlayConfig) (hr : 0 < fadeRate cfg)
    (n : Nat) (hn : n < fadeTicks cfg) : (n : ℚ) * fadeRate cfg < 1 := by
  have hlt : ((n:ℤ)) < Int.ceil ((1:ℚ) / fadeRate cfg) := by
    rw [← fadeTicks_cast cfg hr]
    exact_mod_cast hn
  have hnle : ¬ ((1:ℚ) / fadeRate cfg ≤ ((n:ℤ) : ℚ)) := by
    intro hle
    exact absurd (Int.ceil_le.mpr hle) (by omega)
  have hnr : (n:ℚ) < 1 / fadeRate cfg := by
    push_neg at hnle
    exact_mod_cast hnle
  have := mul_lt_mul_of_pos_right hnr hr
  calc (n:ℚ) * fadeRate cfg < (1 / fadeRate cfg) * fadeRate cfg := this
    _ = 1 := by field_simp

theorem one_le_fadeTicks_mul (cfg : OverlayConfig) (hr : 0 < fadeRate cfg) :
    1 ≤ (fadeTicks cfg : ℚ) * fadeRate cfg := by
  have hceil := Int.le_ceil ((1:ℚ) / fadeRate cfg)
  have hle : (1:ℚ) / fadeRate cfg ≤ (fadeTicks cfg : ℚ) := by
    refine le_trans hceil ?_
    rw [show ((fadeTicks cfg : ℚ)) = (((fadeTicks cfg : ℤ)) : ℚ) by push_cast; ring,
      fadeTicks_cast cfg hr]
  have := mul_le_mul_of_nonneg_right hle (le_of_lt hr)
  calc (1:ℚ) = (1 / fadeRate cfg) * fadeRate cfg := by field_simp
    _ ≤ (fadeTicks cfg : ℚ) * fadeRate cfg := this

theorem fadeTicks_pos (cfg : OverlayConfig) (hr : 0 < fadeRate cfg) :
    1 ≤ fadeTicks cfg := by
  unfold fadeTicks
  have hpos : 0 < (1:ℚ) / fadeRate cfg := by positivity
  have := Int.ceil_pos.mpr hpos
  omega

/-- Claim C2: while a key's fade timer runs, each tick lowers that
bubble's opacity by the fixed amount `fade_speed / 1000 * 50`, removing
the bubble exactly when the decremented opacity reaches or falls below
zero; in the press-then-release scenario the opacity after `n` ticks is
the linear `1 - n·rate`, strictly decreasing and staying in (0, 1] while
the entry is visible, and the entry is removed at exactly
`⌈1 / rate⌉` ticks — the spec's ≈ 1/fade_rate total duration. -/
theorem c2_linear_fade (cfg : OverlayConfig) (k : String) (n : Nat)
    (s : OverlayState) (bid : Nat) (b : KeyBubble)
    (hmax : 1 ≤ cfg.max_keys) (hr : 0 < fadeRate cfg) (hn : n < fadeTicks cfg)
    (hA : dictGet s.active_keys k = some bid)
    (hb : s.key_bubbles.find? (fun b2 => b2.id == bid) = some b)
    (hT : k ∈ s.fade_timers) :
    (0 < b.opacity - fadeRate cfg →
      fade_key cfg s k = some { s with key_bubbles := (s.key_bubbles.map
        (fun b2 => if b2.id == bid then { b2 with opacity := b.opacity - fadeRate cfg }
                   else b2)) }) ∧
    (b.opacity - fadeRate cfg ≤ 0 →
      ∃ s2, fade_key cfg s k = some s2 ∧ dictGet s2.active_keys k = none ∧
        ∀ b2 ∈ s2.key_bubbles, b2.id ≠ bid) ∧
    fadeIter cfg k n (releasedState cfg k) =
      some (midState k (1 - n * fadeRate cfg)) ∧
    (0 < 1 - (n:ℚ) * fadeRate cfg ∧ 1 - (n:ℚ) * fadeRate cfg ≤ 1) ∧
    (1 - ((n:ℚ) + 1) * fadeRate cfg < 1 - (n:ℚ) * fadeRate cfg) ∧
    fadeIter cfg k (fadeTicks cfg) (releasedState cfg k) = some goneState := by
  have hlin := fadeTicks_mul_lt cfg hr n hn
  have hnn : (0:ℚ) ≤ (n:ℚ) * fadeRate cfg :=
    mul_nonneg (Nat.cast_nonneg n) (le_of_lt hr)
  refine ⟨?_, ?_, ?_, ⟨by linarith, by linarith⟩, by nlinarith [hr], ?_⟩
  · intro hpos
    unfold fade_key
    simp only [hA, hb]
    rw [if_neg (by linarith : ¬ (b.opacity - fadeRate cfg ≤ 0))]
  · intro hneg
    unfold fade_key
    simp only [hA, hb]
    rw [if_pos hneg, if_pos hT]
    refine ⟨_, rfl, dictGet_filter_self _ _, ?_⟩
    intro b2 hb2
    have := (List.mem_filter.mp hb2).2
    simpa using this
  · rw [releasedState_eq cfg k hmax]
    exact fadeIter_midState cfg k hr n 1 (by linarith)
  · obtain ⟨m, hm⟩ : ∃ m, fadeTicks cfg = m + 1 :=
      ⟨fadeTicks cfg - 1, by have := fadeTicks_pos cfg hr; omega⟩
    have hmlt : (m:ℚ) * fadeRate cfg < 1 :=
      fadeTicks_mul_lt cfg hr m (by omega)
    rw [hm, fadeIter_succ_back, releasedState_eq cfg k hmax,
      fadeIter_midState cfg k hr m 1 (by linarith)]
    show fade_key cfg (midState k (1 - m * fadeRate cfg)) k = some goneState
    rw [fade_key_midState]
    have h1 := one_le_fadeTicks_mul cfg hr
    rw [hm] at h1
    push_cast at h1
    rw [if_pos (by nlinarith [h1])]

def fadeCfgW : OverlayConfig := ⟨10, 1/2⟩

theorem fadeRateW : fadeRate fadeCfgW = 1/40 := by
  unfold fadeRate fadeCfgW
  norm_num

theorem fadeTicksW : fadeTicks fadeCfgW = 40 := by
  unfold fadeTicks
  rw [show (1:ℚ) / fadeRate fadeCfgW = ((40:ℤ) : ℚ) by rw [fadeRateW]; norm_num,
    Int.ceil_intCast]
  rfl

/-- Witness for C2: the default fade speed 0.5 gives rate 1/40 and a
40-tick fade; checked at tick 5 on the single-bubble scenario state. -/
theorem c2_witness :
    (1 ≤ fadeCfgW.max_keys ∧ 0 < fadeRate fadeCfgW ∧ 5 < fadeTicks fadeCfgW) ∧
    ((0 < (1:ℚ) - fadeRate fadeCfgW →
      fade_key fadeCfgW (midState "A" 1) "A" =
        some { midState "A" 1 with key_bubbles := ((midState "A" 1).key_bubbles.map
          (fun b2 => if b2.id == 0 then { b2 with opacity := 1 - fadeRate fadeCfgW }
                     else b2)) }) ∧
    ((1:ℚ) - fadeRate fadeCfgW ≤ 0 →
      ∃ s2, fade_key fadeCfgW (midState "A" 1) "A" = some s2 ∧
        dictGet s2.active_keys "A" = none ∧ ∀ b2 ∈ s2.key_bubbles, b2.id ≠ 0) ∧
    fadeIter fadeCfgW "A" 5 (releasedState fadeCfgW "A") =
      some (midState "A" (1 - 5 * fadeRate fadeCfgW)) ∧
    (0 < 1 - (5:ℚ) * fadeRate fadeCfgW ∧ 1 - (5:ℚ) * fadeRate fadeCfgW ≤ 1) ∧
    (1 - ((5:ℚ) + 1) * fadeRate fadeCfgW < 1 - (5:ℚ) * fadeRate fadeCfgW) ∧
    fadeIter fadeCfgW "A" (fadeTicks fadeCfgW) (releasedState fadeCfgW "A") =
      some goneState) :=
  ⟨⟨by decide, by rw [fadeRateW]; norm_num, by rw [fadeTicksW]; omega⟩,
   c2_linear_fade fadeCfgW "A" 5 (midState "A" 1) 0 ⟨0, "A", 1⟩
     (by decide) (by rw [fadeRateW]; norm_num) (by rw [fadeTicksW]; omega)
     (by rfl) (by rfl) (by decide)⟩

/-! ## Claim C4: combo label composition (corrected: AltGr is dropped) -/

/-- Claim C4 counterexample: with only AltGr held — a nonempty set of
held modifier identifiers, since AltGr is in `MODIFIER_KEYS` — pressing
the letter key "a" emits the single combined label "A"; the held
modifier identifier "AltGr" is not among its '+'-separated parts, so not
every held modifier identifier is combined into the label. -/
theorem c4_counterexample :
    "AltGr" ∈ MODIFIER_KEYS ∧
    on_press ⟨["AltGr"]⟩ ⟨"a", some 'a', some 65⟩ =
      (⟨["AltGr"]⟩, some (KeyEvent.combo_pressed "A")) ∧
    "AltGr" ∉ pySplit "A" (Char.ofNat 43) := by decide

/-- Claim C4 (amended): with a nonempty held-modifier set, pressing a
non-modifier key emits exactly one combined label: the held modifiers
among Ctrl, Alt, Shift, Win in that fixed order, then the key's label,
joined by '+'.  Every held modifier among those four appears; a held
AltGr triggers the combination but is omitted from the label. -/
theorem c4_amended (st : ListenerState) (key : KeyInput) (kn : String)
    (hname : normalizeKey key = some kn)
    (hmods : st.active_modifiers ≠ [])
    (hkn : kn ∉ MODIFIER_KEYS) :
    on_press st key = (st, some (KeyEvent.combo_pressed
      (pyJoin "+" (comboParts st.active_modifiers kn)))) ∧
    (∀ m, m ∈ comboParts st.active_modifiers kn ↔
      ((m ∈ ["Ctrl", "Alt", "Shift", "Win"] ∧ m ∈ st.active_modifiers) ∨ m = kn)) ∧
    List.Sublist (comboParts st.active_modifiers kn)
      (["Ctrl", "Alt", "Shift", "Win"] ++ [kn]) ∧
    (comboParts st.active_modifiers kn).getLast? = some kn ∧
    "AltGr" ∉ comboParts st.active_modifiers kn := by
  have hmem : ∀ m, m ∈ comboParts st.active_modifiers kn ↔
      ((m ∈ ["Ctrl", "Alt", "Shift", "Win"] ∧ m ∈ st.active_modifiers) ∨ m = kn) := by
    intro m
    simp [comboParts, List.mem_filter, List.mem_append, and_comm]
  refine ⟨?_, hmem, ?_, ?_, ?_⟩
  · unfold on_press
    simp only [hname]
    rw [if_neg hkn, if_pos hmods]
  · exact List.Sublist.append (List.filter_sublist _) (List.Sublist.refl _)
  · exact List.getLast?_concat _
  · intro hm
    rcases (hmem "AltGr").mp hm with ⟨hfixed, _⟩ | heq
    · simp at hfixed
    · exact hkn (by rw [← heq]; decide)

/-- Witness for C4 (amended): Ctrl and Shift held, letter key "b". -/
theorem c4_witness :
    normalizeKey ⟨"b", some 'b', some 66⟩ = some "B" ∧
    (⟨["Shift", "Ctrl"]⟩ : ListenerState).active_modifiers ≠ [] ∧
    ("B" ∉ MODIFIER_KEYS) ∧
    (on_press ⟨["Shift", "Ctrl"]⟩ ⟨"b", some 'b', some 66⟩ =
      (⟨["Shift", "Ctrl"]⟩, some (KeyEvent.combo_pressed
        (pyJoin "+" (comboParts ["Shift", "Ctrl"] "B")))) ∧
    (∀ m, m ∈ comboParts ["Shift", "Ctrl"] "B" ↔
      ((m ∈ ["Ctrl", "Alt", "Shift", "Win"] ∧ m ∈ ["Shift", "Ctrl"]) ∨ m = "B")) ∧
    List.Sublist (comboParts ["Shift", "Ctrl"] "B")
      (["Ctrl", "Alt", "Shift", "Win"] ++ ["B"]) ∧
    (comboParts ["Shift", "Ctrl"] "B").getLast? = some "B" ∧
    "AltGr" ∉ comboParts ["Shift", "Ctrl"] "B") :=
  ⟨by decide, by decide, by decide,
   c4_amended ⟨["Shift", "Ctrl"]⟩ ⟨"b", some 'b', some 66⟩ "B"
     (by decide) (by decide) (by decide)⟩

/-! ## Claim C5: normalization is total; unknown keys are dropped -/

/-- Claim C5: `normalizeKey` is a total, deterministic Lean function of
the key's observable data (string form, char, vk code), so it always
terminates with a label or `none` and cannot raise; and when it yields
no label, both the press and the release handler produce no event and
leave the listener state unchanged. -/
theorem c5_normalization_drop (st : ListenerState) (key : KeyInput)
    (h : normalizeKey key = none) :
    on_press st key = (st, none) ∧ on_release st key = (st, none) := by
  unfold on_press on_release
  simp [h]

/-- Witness for C5: an unknown key `<255>` with vk code 255, outside
every handled range, is silently dropped. -/
theorem c5_witness :
    normalizeKey ⟨"<255>", none, some 255⟩ = none ∧
    (on_press ⟨["Ctrl"]⟩ ⟨"<255>", none, some 255⟩ = (⟨["Ctrl"]⟩, none) ∧
     on_release ⟨["Ctrl"]⟩ ⟨"<255>", none, some 255⟩ = (⟨["Ctrl"]⟩, none)) :=
  ⟨by decide, c5_normalization_drop ⟨["Ctrl"]⟩ ⟨"<255>", none, some 255⟩ (by decide)⟩

/-! ## Claim C6: the virtual-key-code fallback ranges -/

theorem vkToName_eq_none_of_not_handled (vk : Int) (hnot : ¬ vkHandled vk) :
    vkToName vk = none := by
  unfold vkHandled at hnot
  unfold vkToName
  have n1 : ¬ (0x41 ≤ vk ∧ vk ≤ 0x5A) := by omega
  have n2 : ¬ (0x30 ≤ vk ∧ vk ≤ 0x39) := by omega
  have n3 : ¬ (0x60 ≤ vk ∧ vk ≤ 0x69) := by omega
  have n4 : ¬ vk = 0x6A := by omega
  have n5 : ¬ vk = 0x6B := by omega
  have n6 : ¬ vk = 0x6D := by omega
  have n7 : ¬ vk = 0x6E := by omega
  have n8 : ¬ vk = 0x6F := by omega
  have n9 : ¬ vk = 0xBB := by omega
  have n10 : ¬ vk = 0xBC := by omega
  have n11 : ¬ vk = 0xBD := by omega
  have n12 : ¬ vk = 0xBE := by omega
  have n13 : ¬ vk = 0xBF := by omega
  have n14 : ¬ vk = 0xBA := by omega
  have n15 : ¬ vk = 0xDB := by omega
  have n16 : ¬ vk = 0xDC := by omega
  have n17 : ¬ vk = 0xDD := by omega
  have n18 : ¬ vk = 0xDE := by omega
  have n19 : ¬ vk = 0xC0 := by omega
  have n20 : ¬ (0x70 ≤ vk ∧ vk ≤ 0x7B) := by omega
  have n21 : ¬ (0x20 ≤ vk ∧ vk ≤ 0x7E) := by omega
  rw [if_neg n1, if_neg n2, if_neg n3, if_neg n4, if_neg n5, if_neg n6, if_neg n7, if_neg n8, if_neg n9, if_neg n10, if_neg n11, if_neg n12, if_neg n13, if_neg n14, if_neg n15, if_neg n16, if_neg n17, if_neg n18, if_neg n19, if_neg n20, if_neg n21]

theorem vkToName_isSome_of_handled (vk : Int) (hh : vkHandled vk) :
    (vkToName vk).isSome := by
  unfold vkToName
  by_cases c1 : (0x41 ≤ vk ∧ vk ≤ 0x5A)
  · rw [if_pos c1]; rfl
  rw [if_neg c1]
  by_cases c2 : (0x30 ≤ vk ∧ vk ≤ 0x39)
  · rw [if_pos c2]; rfl
  rw [if_neg c2]
  by_cases c3 : (0x60 ≤ vk ∧ vk ≤ 0x69)
  · rw [if_pos c3]; rfl
  rw [if_neg c3]
  by_cases c4 : vk = 0x6A
  · rw [if_pos c4]; rfl
  rw [if_neg c4]
  by_cases c5 : vk = 0x6B
  · rw [if_pos c5]; rfl
  rw [if_neg c5]
  by_cases c6 : vk = 0x6D
  · rw [if_pos c6]; rfl
  rw [if_neg c6]
  by_cases c7 : vk = 0x6E
  · rw [if_pos c7]; rfl
  rw [if_neg c7]
  by_cases c8 : vk = 0x6F
  · rw [if_pos c8]; rfl
  rw [if_neg c8]
  by_cases c9 : vk = 0xBB
  · rw [if_pos c9]; rfl
  rw [if_neg c9]
  by_cases c10 : vk = 0xBC
  · rw [if_pos c10]; rfl
  rw [if_neg c10]
  by_cases c11 : vk = 0xBD
  · rw [if_pos c11]; rfl
  rw [if_neg c11]
  by_cases c12 : vk = 0xBE
  · rw [if_pos c12]; rfl
  rw [if_neg c12]
  by_cases c13 : vk = 0xBF
  · rw [if_pos c13]; rfl
  rw [if_neg c13]
  by_cases c14 : vk = 0xBA
  · rw [if_pos c14]; rfl
  rw [if_neg c14]
  by_cases c15 : vk = 0xDB
  · rw [if_pos c15]; rfl
  rw [if_neg c15]
  by_cases c16 : vk = 0xDC
  · rw [if_pos c16]; rfl
  rw [if_neg c16]
  by_cases c17 : vk = 0xDD
  · rw [if_pos c17]; rfl
  rw [if_neg c17]
  by_cases c18 : vk = 0xDE
  · rw [if_pos c18]; rfl
  rw [if_neg c18]
  by_cases c19 : vk = 0xC0
  · rw [if_pos c19]; rfl
  rw [if_neg c19]
  by_cases c20 : (0x70 ≤ vk ∧ vk ≤ 0x7B)
  · rw [if_pos c20]; rfl
  rw [if_neg c20]
  by_cases c21 : (0x20 ≤ vk ∧ vk ≤ 0x7E)
  · rw [if_pos c21]; rfl
  rw [if_neg c21]
  exfalso
  unfold vkHandled at hh
  omega

theorem vkToName_none_iff (vk : Int) : (vkToName vk).isNone ↔ ¬ vkHandled vk := by
  constructor
  · intro hnone hh
    have hsome := vkToName_isSome_of_handled vk hh
    rw [Option.isNone_iff_eq_none.mp hnone] at hsome
    simp at hsome
  · intro hnot
    rw [vkToName_eq_none_of_not_handled vk hnot]
    rfl

/-- Claim C6: `get_key_from_vk` maps 65-90 to the uppercase letter
`chr(vk)`, 48-57 to the digit `chr(vk)`, numpad 96-105 to the digit
string `str(vk - 96)`, and 112-123 to "F1".."F12"; it returns `none`
exactly for codes outside every handled range (which also includes the
numpad operators, the punctuation table, and the printable-ASCII
catch-all 32-126). -/
theorem c6_vk_ranges (key : KeyInput) (vk : Int) (h : key.vk = some vk) :
    ((65 ≤ vk ∧ vk ≤ 90) → get_key_from_vk key = some (pyChr vk)) ∧
    ((48 ≤ vk ∧ vk ≤ 57) → get_key_from_vk key = some (pyChr vk)) ∧
    ((96 ≤ vk ∧ vk ≤ 105) → get_key_from_vk key = some (toString (vk - 96))) ∧
    ((112 ≤ vk ∧ vk ≤ 123) → get_key_from_vk key = some ("F" ++ toString (vk - 111))) ∧
    ((get_key_from_vk key).isNone ↔ ¬ vkHandled vk) := by
  unfold get_key_from_vk
  simp only [h]
  refine ⟨?_, ?_, ?_, ?_, vkToName_none_iff vk⟩
  · rintro ⟨h1, h2⟩
    unfold vkToName
    rw [if_pos (⟨h1, h2⟩ : (65:Int) ≤ vk ∧ vk ≤ 90)]
  · rintro ⟨h1, h2⟩
    unfold vkToName
    rw [if_neg (by omega), if_pos (⟨h1, h2⟩ : (48:Int) ≤ vk ∧ vk ≤ 57)]
  · rintro ⟨h1, h2⟩
    unfold vkToName
    rw [if_neg (by omega), if_neg (by omega),
      if_pos (⟨h1, h2⟩ : (96:Int) ≤ vk ∧ vk ≤ 105)]
  · rintro ⟨h1, h2⟩
    unfold vkToName
    have m1 : ¬ (0x41 ≤ vk ∧ vk ≤ 0x5A) := by omega
    have m2 : ¬ (0x30 ≤ vk ∧ vk ≤ 0x39) := by omega
    have m3 : ¬ (0x60 ≤ vk ∧ vk ≤ 0x69) := by omega
    have m4 : ¬ vk = 0x6A := by omega
    have m5 : ¬ vk = 0x6B := by omega
    have m6 : ¬ vk = 0x6D := by omega
    have m7 : ¬ vk = 0x6E := by omega
    have m8 : ¬ vk = 0x6F := by omega
    have m9 : ¬ vk = 0xBB := by omega
    have m10 : ¬ vk = 0xBC := by omega
    have m11 : ¬ vk = 0xBD := by omega
    have m12 : ¬ vk = 0xBE := by omega
    have m13 : ¬ vk = 0xBF := by omega
    have m14 : ¬ vk = 0xBA := by omega
    have m15 : ¬ vk = 0xDB := by omega
    have m16 : ¬ vk = 0xDC := by omega
    have m17 : ¬ vk = 0xDD := by omega
    have m18 : ¬ vk = 0xDE := by omega
    have m19 : ¬ vk = 0xC0 := by omega
    rw [if_neg m1, if_neg m2, if_neg m3, if_neg m4, if_neg m5, if_neg m6, if_neg m7, if_neg m8, if_neg m9, if_neg m10, if_neg m11, if_neg m12, if_neg m13, if_neg m14, if_neg m15, if_neg m16, if_neg m17, if_neg m18, if_neg m19,
      if_pos (⟨h1, h2⟩ : (112:Int) ≤ vk ∧ vk ≤ 123)]

/-- Witness for C6 at vk = 65 ("A"). -/
theorem c6_witness :
    (⟨"x", none, some 65⟩ : KeyInput).vk = some 65 ∧
    (((65:Int) ≤ 65 ∧ (65:Int) ≤ 90 →
       get_key_from_vk ⟨"x", none, some 65⟩ = some (pyChr 65)) ∧
     ((48:Int) ≤ 65 ∧ (65:Int) ≤ 57 →
       get_key_from_vk ⟨"x", none, some 65⟩ = some (pyChr 65)) ∧
     ((96:Int) ≤ 65 ∧ (65:Int) ≤ 105 →
       get_key_from_vk ⟨"x", none, some 65⟩ = some (toString ((65:Int) - 96))) ∧
     ((112:Int) ≤ 65 ∧ (65:Int) ≤ 123 →
       get_key_from_vk ⟨"x", none, some 65⟩ = some ("F" ++ toString ((65:Int) - 111))) ∧
     ((get_key_from_vk ⟨"x", none, some 65⟩).isNone ↔ ¬ vkHandled 65)) :=
  ⟨rfl, c6_vk_ranges ⟨"x", none, some 65⟩ 65 rfl⟩

/-! ## Claims C7 and C8: configuration persistence -/

theorem dictGet_eq_none_of_not_mem {α : Type} (m : List (String × α)) (k : String)
    (h : k ∉ m.map Prod.fst) : dictGet m k = none := by
  simp only [dictGet, Option.map_eq_none']
  rw [List.find?_eq_none]
  intro p hp
  simp only [beq_iff_eq]
  intro hpk
  exact h (List.mem_map.mpr ⟨p, hp, hpk⟩)

theorem not_mem_of_dictGet_none {α : Type} {m : List (String × α)} {k : String}
    (h : dictGet m k = none) : k ∉ m.map Prod.fst := by
  intro hk
  obtain ⟨p, hp, hpk⟩ := List.mem_map.mp hk
  exact dictGet_eq_none h p hp hpk

theorem dictGet_foldl_update_not_mem {α : Type} :
    ∀ (kvs : List (String × α)) (m : List (String × α)) (q : String),
      q ∉ kvs.map Prod.fst →
      dictGet (kvs.foldl (fun acc p => dictSet acc p.1 p.2) m) q = dictGet m q := by
  intro kvs
  induction kvs with
  | nil => intro m q _; rfl
  | cons p rest ih =>
    intro m q hq
    rw [List.foldl_cons,
      ih _ q (fun hr => hq (by
        simp only [List.map_cons]
        exact List.mem_cons_of_mem _ hr)),
      dictGet_dictSet_ne _ _ _ _ (fun he => hq (by simp [he]))]

theorem dictGet_foldl_update_mem {α : Type} :
    ∀ (kvs : List (String × α)) (m : List (String × α)) (q : String) (v : α),
      (kvs.map Prod.fst).Nodup → dictGet kvs q = some v →
      dictGet (kvs.foldl (fun acc p => dictSet acc p.1 p.2) m) q = some v := by
  intro kvs
  induction kvs with
  | nil => intro m q v _ hget; simp [dictGet_nil] at hget
  | cons p rest ih =>
    intro m q v hnodup hget
    rw [List.map_cons, List.nodup_cons] at hnodup
    rw [dictGet_cons] at hget
    rw [List.foldl_cons]
    by_cases hp : p.1 == q
    · rw [if_pos hp] at hget
      have hq : q = p.1 := (beq_iff_eq.mp hp).symm
      have hnin : q ∉ rest.map Prod.fst := by
        rw [hq]; exact hnodup.1
      rw [dictGet_foldl_update_not_mem rest _ q hnin, hq, dictGet_dictSet_self]
      rw [Option.some.inj hget]
    · rw [if_neg hp] at hget
      exact ih _ q v hnodup.2 hget

theorem dictGet_filter_pred {α : Type} (m : List (String × α)) (pred : String → Bool)
    (k : String) (h : pred k = false) :
    dictGet (m.filter (fun p => !(pred p.1))) k = dictGet m k := by
  induction m with
  | nil => rfl
  | cons p rest ih =>
    by_cases hp : pred p.1
    · have hpk : ¬ (p.1 == k) := by
        intro he
        rw [beq_iff_eq.mp he, h] at hp
        exact Bool.false_ne_true hp
      rw [List.filter_cons_of_neg (by simp [hp]), ih, dictGet_cons, if_neg hpk]
    · rw [List.filter_cons_of_pos (by simpa using hp), dictGet_cons, dictGet_cons, ih]

/-- Claim C7 counterexample: the stored object `{"zzz": 1}` with an
unknown key is merged into the effective configuration rather than
ignored, and a stored value parsing to the nonempty JSON string "ab"
makes `load_config` raise an uncaught `ValueError` instead of falling
back to defaults. -/
theorem c7_counterexample :
    (∀ p ∈ DEFAULT_CONFIG, p.1 ≠ "zzz") ∧
    load_config (Stored.parsed (JVal.jobj [("zzz", JVal.jnum 1)])) =
      Except.ok (DEFAULT_CONFIG ++ [("zzz", JVal.jnum 1)]) ∧
    dictGet (DEFAULT_CONFIG ++ [("zzz", JVal.jnum 1)]) "zzz" = some (JVal.jnum 1) ∧
    load_config (Stored.parsed (JVal.jstr "ab")) = Except.error PyErr.valueError :=
  ⟨by decide, rfl, rfl, rfl⟩

/-- Claim C7 (amended): `load_config` returns the full defaults when the
stored value is absent or malformed JSON, and when it parses to a
number, boolean or null (the `TypeError` is caught); a stored JSON
object is merged over the defaults, so option keys missing from it keep
their default values and present keys take the stored values — but keys
that are not known options are merged in as well, not ignored; and a
stored value parsing to a nonempty JSON string raises an uncaught
`ValueError`. -/
theorem c7_amended (q : ℚ) (b : Bool) (s : String) (hs : s ≠ "")
    (kvs : List (String × JVal)) (hnodup : (kvs.map Prod.fst).Nodup) (k : String) :
    load_config Stored.absent = Except.ok DEFAULT_CONFIG ∧
    load_config Stored.malformed = Except.ok DEFAULT_CONFIG ∧
    load_config (Stored.parsed (JVal.jnum q)) = Except.ok DEFAULT_CONFIG ∧
    load_config (Stored.parsed (JVal.jbool b)) = Except.ok DEFAULT_CONFIG ∧
    load_config (Stored.parsed JVal.jnull) = Except.ok DEFAULT_CONFIG ∧
    load_config (Stored.parsed (JVal.jstr s)) = Except.error PyErr.valueError ∧
    (∃ c, load_config (Stored.parsed (JVal.jobj kvs)) = Except.ok c ∧
      (dictGet kvs k = none → dictGet c k = dictGet DEFAULT_CONFIG k) ∧
      (∀ v, dictGet kvs k = some v → dictGet c k = some v)) := by
  refine ⟨rfl, rfl, rfl, rfl, rfl, ?_, ?_⟩
  · simp only [load_config, dictUpdate]
    rw [if_neg hs]
  · refine ⟨_, rfl, ?_, ?_⟩
    · intro hm
      exact dictGet_foldl_update_not_mem kvs DEFAULT_CONFIG k (not_mem_of_dictGet_none hm)
    · intro v hv
      exact dictGet_foldl_update_mem kvs DEFAULT_CONFIG k v hnodup hv

/-- Witness for C7 (amended) at concrete inputs. -/
theorem c7_witness :
    ("ab" : String) ≠ "" ∧
    (([("font_size", JVal.jnum 30)] : List (String × JVal)).map Prod.fst).Nodup ∧
    (load_config Stored.absent = Except.ok DEFAULT_CONFIG ∧
     load_config Stored.malformed = Except.ok DEFAULT_CONFIG ∧
     load_config (Stored.parsed (JVal.jnum 3)) = Except.ok DEFAULT_CONFIG ∧
     load_config (Stored.parsed (JVal.jbool true)) = Except.ok DEFAULT_CONFIG ∧
     load_config (Stored.parsed JVal.jnull) = Except.ok DEFAULT_CONFIG ∧
     load_config (Stored.parsed (JVal.jstr "ab")) = Except.error PyErr.valueError ∧
     (∃ c, load_config (Stored.parsed (JVal.jobj [("font_size", JVal.jnum 30)])) =
         Except.ok c ∧
       (dictGet [("font_size", JVal.jnum 30)] "padding" = none →
         dictGet c "padding" = dictGet DEFAULT_CONFIG "padding") ∧
       (∀ v, dictGet [("font_size", JVal.jnum 30)] "padding" = some v →
         dictGet c "padding" = some v))) :=
  ⟨by decide, by decide,
   c7_amended 3 true "ab" (by decide) [("font_size", JVal.jnum 30)] (by decide) "padding"⟩

/-- Claim C8: for a configuration whose keys are exactly the known
option keys, `save_config` then `load_config` reproduces the same
effective configuration (same lookup at every key); and if any subset of
keys is removed from the stored object before loading, the result agrees
with the original on the kept keys and with the defaults on the removed
ones. -/
theorem c8_roundtrip (c : List (String × JVal))
    (hnodup : (c.map Prod.fst).Nodup)
    (hkeys : (c.map Prod.fst).Perm (DEFAULT_CONFIG.map Prod.fst))
    (bad : String → Bool) :
    (∃ c2, load_config (save_config c) = Except.ok c2 ∧
      ∀ k, dictGet c2 k = dictGet c k) ∧
    (∃ c3, load_config (Stored.parsed (JVal.jobj (c.filter (fun p => !(bad p.1))))) =
        Except.ok c3 ∧
      (∀ k, bad k = true → dictGet c3 k = dictGet DEFAULT_CONFIG k) ∧
      (∀ k, bad k = false → dictGet c3 k = dictGet c k)) := by
  constructor
  · refine ⟨_, rfl, ?_⟩
    intro k
    cases hc : dictGet c k with
    | some v => exact dictGet_foldl_update_mem c DEFAULT_CONFIG k v hnodup hc
    | none =>
      rw [dictGet_foldl_update_not_mem c DEFAULT_CONFIG k (not_mem_of_dictGet_none hc)]
      refine dictGet_eq_none_of_not_mem _ _ ?_
      rw [← hkeys.mem_iff]
      exact not_mem_of_dictGet_none hc
  · have hnodup2 : ((c.filter (fun p => !(bad p.1))).map Prod.fst).Nodup :=
      ((List.filter_sublist c).map Prod.fst).nodup hnodup
    refine ⟨_, rfl, ?_, ?_⟩
    · intro k hk
      have hnone : dictGet (c.filter (fun p => !(bad p.1))) k = none := by
        refine dictGet_eq_none_of_not_mem _ _ ?_
        intro hmem
        obtain ⟨p, hp, hpk⟩ := List.mem_map.mp hmem
        have := (List.mem_filter.mp hp).2
        rw [hpk, hk] at this
        simp at this
      rw [dictGet_foldl_update_not_mem _ DEFAULT_CONFIG k (not_mem_of_dictGet_none hnone)]
    · intro k hk
      have hsame : dictGet (c.filter (fun p => !(bad p.1))) k = dictGet c k :=
        dictGet_filter_pred c bad k hk
      cases hc : dictGet c k with
      | some v =>
        exact dictGet_foldl_update_mem _ DEFAULT_CONFIG k v hnodup2 (hsame.trans hc)
      | none =>
        rw [dictGet_foldl_update_not_mem _ DEFAULT_CONFIG k
          (not_mem_of_dictGet_none (hsame.trans hc))]
        refine dictGet_eq_none_of_not_mem _ _ ?_
        rw [← hkeys.mem_iff]
        exact not_mem_of_dictGet_none hc

/-- Witness for C8: the default configuration itself, with the
"font_size" key removed in the subset part. -/
theorem c8_witness :
    ((DEFAULT_CONFIG.map Prod.fst).Nodup ∧
     (DEFAULT_CONFIG.map Prod.fst).Perm (DEFAULT_CONFIG.map Prod.fst)) ∧
    ((∃ c2, load_config (save_config DEFAULT_CONFIG) = Except.ok c2 ∧
      ∀ k, dictGet c2 k = dictGet DEFAULT_CONFIG k) ∧
    (∃ c3, load_config (Stored.parsed (JVal.jobj
        (DEFAULT_CONFIG.filter (fun p => !(p.1 == "font_size"))))) = Except.ok c3 ∧
      (∀ k, (k == "font_size") = true → dictGet c3 k = dictGet DEFAULT_CONFIG k) ∧
      (∀ k, (k == "font_size") = false → dictGet c3 k = dictGet DEFAULT_CONFIG k))) :=
  ⟨⟨by decide, List.Perm.refl _⟩,
   c8_roundtrip DEFAULT_CONFIG (by decide) (List.Perm.refl _) (fun k => k == "font_size")⟩

/-! ## Claim C10: preservation of the display-state invariant -/

theorem inv_update_config (cfg : OverlayConfig) (s : OverlayState) :
    OverlayInv (update_config s cfg) := by
  refine ⟨?_, ?_, ?_, ?_, ?_, ?_, ?_⟩ <;> simp [update_config]

theorem inv_combo_update (s : OverlayState) (m : List (String × String))
    (hInv : OverlayInv s) : OverlayInv { s with combo_key_map := m } :=
  ⟨hInv.namesNodup, hInv.idsNodup, hInv.perm, hInv.namesNe, hInv.textEq,
   hInv.timersSub, hInv.fresh⟩

theorem inv_start_fade (s : OverlayState) (k : String) (hInv : OverlayInv s) :
    OverlayInv (start_fade s k) := by
  unfold start_fade
  by_cases hs : (dictGet s.active_keys k).isSome
  · rw [if_pos hs]
    by_cases ht : k ∈ s.fade_timers
    · rw [if_pos ht]; exact hInv
    · rw [if_neg ht]
      refine ⟨hInv.namesNodup, hInv.idsNodup, hInv.perm, hInv.namesNe, hInv.textEq,
        ?_, hInv.fresh⟩
      intro t htm
      rcases List.mem_append.mp htm with h1 | h1
      · exact hInv.timersSub t h1
      · rw [List.mem_singleton.mp h1]
        obtain ⟨v, hv⟩ := Option.isSome_iff_exists.mp hs
        exact dictGet_some_key_mem hv
  · rw [if_neg hs]; exact hInv

theorem inv_opacity_update (s : OverlayState) (bid : Nat) (o : ℚ)
    (timers2 : List String) (hInv : OverlayInv s)
    (ht : ∀ t ∈ timers2, t ∈ s.fade_timers) :
    OverlayInv { s with
      key_bubbles := (s.key_bubbles.map
        (fun b2 => if b2.id == bid then { b2 with opacity := o } else b2)),
      fade_timers := timers2 } := by
  refine ⟨hInv.namesNodup, ?_, ?_, hInv.namesNe, ?_, ?_, ?_⟩
  · show ((s.key_bubbles.map _).map KeyBubble.id).Nodup
    rw [map_opacity_ids]
    exact hInv.idsNodup
  · show (s.active_keys.map Prod.snd).Perm ((s.key_bubbles.map _).map KeyBubble.id)
    rw [map_opacity_ids]
    exact hInv.perm
  · intro p hp b hb hid
    obtain ⟨b0, hb0, rfl⟩ := List.mem_map.mp hb
    by_cases h0 : b0.id == bid
    · rw [if_pos h0] at hid ⊢
      exact hInv.textEq p hp b0 hb0 hid
    · rw [if_neg h0] at hid ⊢
      exact hInv.textEq p hp b0 hb0 hid
  · intro t htm
    exact hInv.timersSub t (ht t htm)
  · intro b hb
    obtain ⟨b0, hb0, rfl⟩ := List.mem_map.mp hb
    by_cases h0 : b0.id == bid
    · rw [if_pos h0]
      exact hInv.fresh b0 hb0
    · rw [if_neg h0]
      exact hInv.fresh b0 hb0

theorem inv_remove_entry (s : OverlayState) (k : String) (bid : Nat)
    (hInv : OverlayInv s) (h : dictGet s.active_keys k = some bid) :
    OverlayInv { key_bubbles := s.key_bubbles.filter (fun b2 => !(b2.id == bid)),
                 fade_timers := s.fade_timers.filter (fun t => !(t == k)),
                 active_keys := s.active_keys.filter (fun p => !(p.1 == k)),
                 combo_key_map := s.combo_key_map,
                 next_id := s.next_id } := by
  have hmem : (k, bid) ∈ s.active_keys := dictGet_some_mem h
  have hbid_values : bid ∈ s.active_keys.map Prod.snd :=
    List.mem_map.mpr ⟨(k, bid), hmem, rfl⟩
  have hbid_ids : bid ∈ s.key_bubbles.map KeyBubble.id := hInv.perm.mem_iff.mp hbid_values
  obtain ⟨b, hbmem, hbid⟩ := List.mem_map.mp hbid_ids
  have permA := perm_cons_filter Prod.fst s.active_keys (k, bid) hmem hInv.namesNodup
  have permB := perm_cons_filter KeyBubble.id s.key_bubbles b hbmem hInv.idsNodup
  have hfilterB : (s.key_bubbles.filter (fun x => !(KeyBubble.id x == KeyBubble.id b))) =
      s.key_bubbles.filter (fun b2 => !(b2.id == bid)) := by
    rw [hbid]
  refine ⟨?_, ?_, ?_, ?_, ?_, ?_, ?_⟩
  · exact ((List.filter_sublist s.active_keys).map Prod.fst).nodup hInv.namesNodup
  · exact ((List.filter_sublist s.key_bubbles).map KeyBubble.id).nodup hInv.idsNodup
  · have pA := permA.map Prod.snd
    have pB := permB.map KeyBubble.id
    rw [hfilterB] at pB
    simp only [List.map_cons] at pA pB
    rw [hbid] at pB
    have := (pA.symm.trans hInv.perm).trans pB
    exact this.cons_inv
  · intro p hp
    exact hInv.namesNe p (List.mem_filter.mp hp).1
  · intro p hp b2 hb2 hid
    exact hInv.textEq p (List.mem_filter.mp hp).1 b2 (List.mem_filter.mp hb2).1 hid
  · intro t htm
    have h1 := (List.mem_filter.mp htm).1
    have h2 := (List.mem_filter.mp htm).2
    have htk : t ≠ k := by simpa using h2
    have hnames := hInv.timersSub t h1
    obtain ⟨p, hp, hpk⟩ := List.mem_map.mp hnames
    refine List.mem_map.mpr ⟨p, List.mem_filter.mpr ⟨hp, ?_⟩, hpk⟩
    simp [hpk, htk]
  · intro b2 hb2
    exact hInv.fresh b2 (List.mem_filter.mp hb2).1

theorem inv_removePart (s : OverlayState) (part : String) (hInv : OverlayInv s) :
    OverlayInv (removePart s part) := by
  unfold removePart
  cases h : dictGet s.active_keys part with
  | none => exact hInv
  | some bid => exact inv_remove_entry s part bid hInv h

theorem inv_foldl_removePart (parts : List String) :
    ∀ s : OverlayState, OverlayInv s → OverlayInv (parts.foldl removePart s) := by
  induction parts with
  | nil => intro s h; exact h
  | cons p rest ih => intro s h; exact ih _ (inv_removePart s p h)

theorem inv_evictOnce (s : OverlayState) (hInv : OverlayInv s) :
    OverlayInv (evictOnce s) := by
  cases hb : s.key_bubbles with
  | nil =>
    have hred : evictOnce s = s := by unfold evictOnce; rw [hb]
    rw [hred]; exact hInv
  | cons old rest =>
    have hred : evictOnce s =
        (match s.active_keys.find? (fun p => p.2 == old.id) with
         | none => { s with key_bubbles := rest }
         | some p =>
           if p.1 == "" then { s with key_bubbles := rest }
           else
             { s with
               key_bubbles := rest,
               active_keys := s.active_keys.filter (fun q => !(q.1 == p.1)),
               fade_timers := s.fade_timers.filter (fun t => !(t == p.1)) }) := by
      unfold evictOnce; rw [hb]
    have holdmem : old ∈ s.key_bubbles := by rw [hb]; exact List.mem_cons_self _ _
    have hid_vals : old.id ∈ s.active_keys.map Prod.snd :=
      hInv.perm.symm.mem_iff.mp (List.mem_map.mpr ⟨old, holdmem, rfl⟩)
    obtain ⟨p0, hp0, hp0id⟩ := List.mem_map.mp hid_vals
    have hfsome : (s.active_keys.find? (fun q => q.2 == old.id)).isSome := by
      rw [List.find?_isSome]
      exact ⟨p0, hp0, by simp [hp0id]⟩
    obtain ⟨p, hf⟩ := Option.isSome_iff_exists.mp hfsome
    have hpmem : p ∈ s.active_keys := List.mem_of_find?_eq_some hf
    have hpid : p.2 = old.id := by simpa using List.find?_some hf
    have hpne : ¬ (p.1 == "") := by simpa using hInv.namesNe p hpmem
    have hids := hInv.idsNodup
    rw [hb, List.map_cons, List.nodup_cons] at hids
    rw [hred]
    simp only [hf]
    rw [if_neg hpne]
    have permA := perm_cons_filter Prod.fst s.active_keys p hpmem hInv.namesNodup
    refine ⟨?_, ?_, ?_, ?_, ?_, ?_, ?_⟩
    · exact ((List.filter_sublist s.active_keys).map Prod.fst).nodup hInv.namesNodup
    · exact hids.2
    · have pA := permA.map Prod.snd
      simp only [List.map_cons] at pA
      have hperm := hInv.perm
      rw [hb, List.map_cons] at hperm
      rw [hpid] at pA
      exact (pA.symm.trans hperm).cons_inv
    · intro p2 hp2
      exact hInv.namesNe p2 (List.mem_filter.mp hp2).1
    · intro p2 hp2 b2 hb2 hid
      refine hInv.textEq p2 (List.mem_filter.mp hp2).1 b2 ?_ hid
      rw [hb]
      exact List.mem_cons_of_mem _ hb2
    · intro t htm
      have h1 := (List.mem_filter.mp htm).1
      have htk : t ≠ p.1 := by simpa using (List.mem_filter.mp htm).2
      obtain ⟨p2, hp2, hp2k⟩ := List.mem_map.mp (hInv.timersSub t h1)
      refine List.mem_map.mpr ⟨p2, List.mem_filter.mpr ⟨hp2, ?_⟩, hp2k⟩
      simp [hp2k, htk]
    · intro b2 hb2
      refine hInv.fresh b2 ?_
      rw [hb]
      exact List.mem_cons_of_mem _ hb2

theorem inv_evictLoop (m : Nat) :
    ∀ (fuel : Nat) (s : OverlayState), OverlayInv s → OverlayInv (evictLoop m fuel s)
  | 0, s, h => h
  | fuel + 1, s, h => by
    by_cases hl : m < s.key_bubbles.length
    · simp only [evictLoop, if_pos hl]
      exact inv_evictLoop m fuel (evictOnce s) (inv_evictOnce s h)
    · simp only [evictLoop, if_neg hl]
      exact h

theorem inv_add_key (cfg : OverlayConfig) (s : OverlayState) (k : String)
    (hInv : OverlayInv s) (hk : k ≠ "") : OverlayInv (add_key cfg s k) := by
  unfold add_key
  cases h : dictGet s.active_keys k with
  | some bid =>
    exact inv_opacity_update s bid 1 (s.fade_timers.filter (fun t => !(t == k))) hInv
      (fun t ht => (List.mem_filter.mp ht).1)
  | none =>
    apply inv_evictLoop
    have hknot : k ∉ s.active_keys.map Prod.fst := not_mem_of_dictGet_none h
    have hval_lt : ∀ p ∈ s.active_keys, p.2 < s.next_id := by
      intro p hp
      have hmem : p.2 ∈ s.key_bubbles.map KeyBubble.id :=
        hInv.perm.mem_iff.mp (List.mem_map.mpr ⟨p, hp, rfl⟩)
      obtain ⟨b, hbm, hbid⟩ := List.mem_map.mp hmem
      rw [← hbid]
      exact hInv.fresh b hbm
    refine ⟨?_, ?_, ?_, ?_, ?_, ?_, ?_⟩
    · show ((s.active_keys ++ [(k, s.next_id)]).map Prod.fst).Nodup
      rw [List.map_append, List.nodup_append]
      refine ⟨hInv.namesNodup, List.nodup_singleton k, ?_⟩
      intro a ha hb
      simp only [List.map_cons, List.map_nil, List.mem_singleton] at hb
      rw [hb] at ha
      exact hknot ha
    · show ((s.key_bubbles ++ [(⟨s.next_id, k, 1⟩ : KeyBubble)]).map KeyBubble.id).Nodup
      rw [List.map_append, List.nodup_append]
      refine ⟨hInv.idsNodup, List.nodup_singleton _, ?_⟩
      intro a ha hb
      simp only [List.map_cons, List.map_nil, List.mem_singleton] at hb
      obtain ⟨b, hbm, hbid⟩ := List.mem_map.mp ha
      rw [hb] at hbid
      exact absurd hbid (Nat.ne_of_lt (hInv.fresh b hbm))
    · show ((s.active_keys ++ [(k, s.next_id)]).map Prod.snd).Perm
        ((s.key_bubbles ++ [(⟨s.next_id, k, 1⟩ : KeyBubble)]).map KeyBubble.id)
      rw [List.map_append, List.map_append]
      exact hInv.perm.append (List.Perm.refl _)
    · intro p hp
      rcases List.mem_append.mp hp with h1 | h1
      · exact hInv.namesNe p h1
      · rw [List.mem_singleton.mp h1]
        exact hk
    · intro p hp b hbm hid
      rcases List.mem_append.mp hp with hp1 | hp1 <;>
        rcases List.mem_append.mp hbm with hb1 | hb1
      · exact hInv.textEq p hp1 b hb1 hid
      · exfalso
        rw [List.mem_singleton.mp hb1] at hid
        simp only at hid
        have := hval_lt p hp1
        omega
      · exfalso
        rw [List.mem_singleton.mp hp1] at hid
        simp only at hid
        have := hInv.fresh b hb1
        omega
      · rw [List.mem_singleton.mp hb1, List.mem_singleton.mp hp1]
    · intro t ht
      show t ∈ (s.active_keys ++ [(k, s.next_id)]).map Prod.fst
      rw [List.map_append]
      exact List.mem_append_left _ (hInv.timersSub t ht)
    · intro b hbm
      rcases List.mem_append.mp hbm with h1 | h1
      · exact Nat.lt_succ_of_lt (hInv.fresh b h1)
      · rw [List.mem_singleton.mp h1]
        exact Nat.lt_succ_self _

theorem inv_release_key (s : OverlayState) (k : String) (hInv : OverlayInv s) :
    OverlayInv (release_key s k) := by
  unfold release_key
  cases h : dictGet s.combo_key_map k with
  | none => exact inv_start_fade s k hInv
  | some combo => exact inv_combo_update _ _ (inv_start_fade s combo hInv)

theorem inv_show_combo (cfg : OverlayConfig) (s : OverlayState) (combo : String)
    (hInv : OverlayInv s) (hc : combo ≠ "") : OverlayInv (show_combo cfg s combo) := by
  unfold show_combo
  exact inv_add_key cfg _ combo
    (inv_combo_update _ _ (inv_foldl_removePart _ s hInv)) hc

theorem inv_fade_key (cfg : OverlayConfig) (s : OverlayState) (k : String)
    (hInv : OverlayInv s) (hT : k ∈ s.fade_timers) :
    ∃ s2, fade_key cfg s k = some s2 ∧ OverlayInv s2 := by
  unfold fade_key
  cases hA : dictGet s.active_keys k with
  | none =>
    refine ⟨_, rfl, ?_⟩
    refine ⟨hInv.namesNodup, hInv.idsNodup, hInv.perm, hInv.namesNe, hInv.textEq,
      ?_, hInv.fresh⟩
    intro t ht
    exact hInv.timersSub t (List.mem_filter.mp ht).1
  | some bid =>
    have hvals : bid ∈ s.active_keys.map Prod.snd :=
      List.mem_map.mpr ⟨(k, bid), dictGet_some_mem hA, rfl⟩
    have hids : bid ∈ s.key_bubbles.map KeyBubble.id := hInv.perm.mem_iff.mp hvals
    obtain ⟨b0, hbm, hbid⟩ := List.mem_map.mp hids
    have hfsome : (s.key_bubbles.find? (fun b2 => b2.id == bid)).isSome := by
      rw [List.find?_isSome]
      exact ⟨b0, hbm, by simp [hbid]⟩
    obtain ⟨b, hfb⟩ := Option.isSome_iff_exists.mp hfsome
    simp only [hfb]
    by_cases hop : b.opacity - fadeRate cfg ≤ 0
    · rw [if_pos hop, if_pos hT]
      exact ⟨_, rfl, inv_remove_entry s k bid hInv hA⟩
    · rw [if_neg hop]
      exact ⟨_, rfl, inv_opacity_update s bid (b.opacity - fadeRate cfg) s.fade_timers
        hInv (fun t ht => ht)⟩

/-- Claim C10: every overlay operation preserves the display-state
consistency invariant `OverlayInv` — the values of `active_keys` are
exactly the bubbles of `key_bubbles` (a bijection matching each bubble's
text, with unique nonempty key names and unique bubble ids), every key
with a running fade timer is in `active_keys`, and allocated ids stay
below the counter.  `fade_key` is considered as its timer invokes it
(the key has a running timer), where it also cannot hit its `KeyError`
path. -/
theorem c10_invariant (cfg : OverlayConfig) (s : OverlayState) (hInv : OverlayInv s) :
    (∀ k, k ≠ "" → OverlayInv (add_key cfg s k)) ∧
    (∀ k, OverlayInv (start_fade s k)) ∧
    (∀ k, OverlayInv (release_key s k)) ∧
    (∀ combo, combo ≠ "" → OverlayInv (show_combo cfg s combo)) ∧
    (∀ k, k ∈ s.fade_timers → ∃ s2, fade_key cfg s k = some s2 ∧ OverlayInv s2) ∧
    OverlayInv (update_config s cfg) :=
  ⟨fun k hk => inv_add_key cfg s k hInv hk,
   fun k => inv_start_fade s k hInv,
   fun k => inv_release_key s k hInv,
   fun combo hc => inv_show_combo cfg s combo hInv hc,
   fun k hT => inv_fade_key cfg s k hInv hT,
   inv_update_config cfg s⟩

/-- Witness for C10 at the single-bubble state with a running timer. -/
theorem c10_witness :
    OverlayInv (midState "A" 1) ∧
    ((∀ k, k ≠ "" → OverlayInv (add_key overlayCfgW (midState "A" 1) k)) ∧
     (∀ k, OverlayInv (start_fade (midState "A" 1) k)) ∧
     (∀ k, OverlayInv (release_key (midState "A" 1) k)) ∧
     (∀ combo, combo ≠ "" → OverlayInv (show_combo overlayCfgW (midState "A" 1) combo)) ∧
     (∀ k, k ∈ (midState "A" 1).fade_timers →
       ∃ s2, fade_key overlayCfgW (midState "A" 1) k = some s2 ∧ OverlayInv s2) ∧
     OverlayInv (update_config (midState "A" 1) overlayCfgW)) := by
  have hInv : OverlayInv (midState "A" 1) :=
    ⟨by decide, by decide, List.Perm.refl _, by decide, by decide, by decide, by decide⟩
  exact ⟨hInv, c10_invariant overlayCfgW (midState "A" 1) hInv⟩
